import Mathlib

/-!
Verification of the in-memory model evaluator (`verticapy/learn/memmodel.py`).

The Python functions are embedded shallowly: machine floats become exact
rationals `ℚ` (reals `ℝ` where a sigmoid or a fractional power appears),
Python exceptions become `Except PyErr`, and the unbounded recursion of the
tree walkers becomes fuel-indexed recursion (with fuel large enough for every
acyclic tree).  SQL generators are embedded as the string builders they are;
where a claim is about the *value* of a generated expression, a clearly named
semantic mirror of the same builder evaluates the expression it emits.
-/

namespace VerticaPy

/-- Python `str()` of a number, for numbers inserted into format strings.
Agrees with Python on integer-valued inputs (the only numeric values the
concrete theorems below render). -/
def qToStr (q : ℚ) : String :=
  if q.den = 1 then toString q.num else toString q

/-- A Python scalar as it appears in `threshold`, `classes` or `categories`
lists: a number, a string, or `None`. -/
inductive Scalar where
  | num : ℚ → Scalar
  | str : String → Scalar
  | null : Scalar
deriving DecidableEq

/-- Python `str()` of a scalar. -/
def Scalar.pyStr : Scalar → String
  | .num q => qToStr q
  | .str s => s
  | .null => "None"

/-- `float()` conversion of a scalar.  A numeric string would convert in
Python; that case is modelled as a failure and is not exercised by any
theorem below. -/
def Scalar.toFloat? : Scalar → Option ℚ
  | .num q => some q
  | _ => none

/-- An entry of a tree's `value` list: `None`, a plain number (regression), or
a per-class score vector (classification). -/
inductive NodeVal where
  | none : NodeVal
  | num : ℚ → NodeVal
  | vec : List ℚ → NodeVal
deriving DecidableEq

/-- Python exceptions raised by the embedded code.  `.fuel` marks exhaustion
of the recursion fuel, i.e. a tree walk the Python source would not finish. -/
inductive PyErr where
  | param : String → PyErr
  | typeErr : PyErr
  | indexErr : PyErr
  | valueErr : PyErr
  | zeroDiv : PyErr
  | funcErr : String → PyErr
  | fuel : PyErr
deriving DecidableEq

instance instExceptDecidableEq {ε α : Type} [DecidableEq ε] [DecidableEq α] :
    DecidableEq (Except ε α) := fun x y =>
  match x, y with
  | .ok a, .ok b =>
    if h : a = b then .isTrue (congrArg Except.ok h)
    else .isFalse (fun hc => h (by cases hc; rfl))
  | .error a, .error b =>
    if h : a = b then .isTrue (congrArg Except.error h)
    else .isFalse (fun hc => h (by cases hc; rfl))
  | .ok _, .error _ => .isFalse (fun hc => Except.noConfusion hc)
  | .error _, .ok _ => .isFalse (fun hc => Except.noConfusion hc)

/-- Auxiliary loop of `np.argmax`: first index attaining the maximum. -/
def npArgmaxGo : List ℚ → ℚ → ℕ → ℕ → ℕ
  | [], _, bi, _ => bi
  | y :: ys, best, bi, i =>
    if best < y then npArgmaxGo ys y i (i + 1) else npArgmaxGo ys best bi (i + 1)

/-- `np.argmax` on a vector: the first index attaining the maximum, `none` on
an empty vector (where numpy raises). -/
def npArgmax : List ℚ → Option ℕ
  | [] => Option.none
  | x :: xs => some (npArgmaxGo xs x 0 1)

/-- `np.argmax(value[node])` as used on a leaf value. -/
def NodeVal.argmaxIdx : NodeVal → Except PyErr ℕ
  | .num _ => .ok 0
  | .vec [] => .error .valueErr
  | .vec (x :: xs) => .ok (npArgmaxGo xs x 0 1)
  | .none => .error .typeErr

/-- Result of the numeric tree walk: a raw `value[node]`, a class label, or a
raw arg-max index (classification with an empty `classes` list). -/
inductive PredOut where
  | val : NodeVal → PredOut
  | label : Scalar → PredOut
  | idx : ℕ → PredOut
deriving DecidableEq

/-- Embedding of the inner `predict_tree` of `predict_from_binary_tree`
(memmodel.py:109-122).  At a leaf (`children_left[id] == children_right[id]`):
classification without probabilities returns the class at the arg-max of
`value[id]` (or the raw arg-max index when `classes` is empty); every other
mode returns `value[id]` itself.  At an internal node the walk goes left iff
the textual threshold equals `str(row[feature])`, or the numeric threshold is
strictly above `float(row[feature])`.  `fuel` bounds the recursion depth; the
source recursion is unbounded, so `.fuel` marks a walk it would never finish. -/
def predictTreeRow (isRegressor returnProba : Bool) (classes : List Scalar)
    (childrenLeft childrenRight feature : List ℕ) (threshold : List Scalar)
    (value : List NodeVal) : ℕ → ℕ → List Scalar → Except PyErr PredOut
  | 0, _, _ => .error .fuel
  | Nat.succ fuel, nodeId, row =>
    match childrenLeft.get? nodeId, childrenRight.get? nodeId with
    | some l, some r =>
      if l = r then
        match value.get? nodeId with
        | some v =>
          if isRegressor = false ∧ returnProba = false then
            match v.argmaxIdx with
            | .ok k =>
              if 0 < classes.length then
                match classes.get? k with
                | some c => .ok (.label c)
                | Option.none => .error .indexErr
              else .ok (.idx k)
            | .error e => .error e
          else .ok (.val v)
        | Option.none => .error .indexErr
      else
        match feature.get? nodeId, threshold.get? nodeId with
        | some f, some t =>
          match row.get? f with
          | some xv =>
            let goLeft : Except PyErr Bool :=
              match t with
              | .str s => .ok (xv.pyStr = s)
              | _ =>
                match xv.toFloat?, t.toFloat? with
                | some a, some b => .ok (decide (a < b))
                | _, _ => .error .valueErr
            match goLeft with
            | .ok true =>
              predictTreeRow isRegressor returnProba classes childrenLeft
                childrenRight feature threshold value fuel l row
            | .ok false =>
              predictTreeRow isRegressor returnProba classes childrenLeft
                childrenRight feature threshold value fuel r row
            | .error e => .error e
          | Option.none => .error .indexErr
        | _, _ => .error .indexErr
    | _, _ => .error .indexErr

/-- Embedding of `predict_from_binary_tree` (memmodel.py:60-125): the walk is
applied to every row of `X`.  Fuel `#nodes + 1` suffices for any acyclic
tree. -/
def predictFromBinaryTree (X : List (List Scalar))
    (childrenLeft childrenRight feature : List ℕ) (threshold : List Scalar)
    (value : List NodeVal) (classes : List Scalar)
    (returnProba isRegressor : Bool) : Except PyErr (List PredOut) :=
  X.mapM (fun row =>
    predictTreeRow isRegressor returnProba classes childrenLeft childrenRight
      feature threshold value (childrenLeft.length + 1) 0 row)

/-- A value returned by the recursive SQL builder of `sql_from_binary_tree`:
either an already formatted string, or a raw Python value (a number, a class
scalar, a `value[node]` entry, or an arg-max index) that a caller's format
string would stringify. -/
inductive SqlVal where
  | str : String → SqlVal
  | scalar : Scalar → SqlVal
  | node : NodeVal → SqlVal
  | idx : ℕ → SqlVal
deriving DecidableEq

/-- Python `str()` of a list of numbers. -/
def pyListStr (l : List ℚ) : String :=
  "[" ++ String.intercalate ", " (l.map qToStr) ++ "]"

/-- How a `SqlVal` prints when interpolated into a parent format string. -/
def SqlVal.fmt : SqlVal → String
  | .str s => s
  | .scalar s => s.pyStr
  | .node (.num q) => qToStr q
  | .node (.vec l) => pyListStr l
  | .node .none => "None"
  | .idx k => toString k

/-- The comparison operator chosen at memmodel.py:192:
`'=' if isinstance(threshold[node_id], str) else '<'`. -/
def sqlThresholdOp : Scalar → String
  | .str _ => "="
  | _ => "<"

/-- Embedding of the inner `predict_tree` of `sql_from_binary_tree`
(memmodel.py:178-196).  A leaf yields `value[node][prob_ID]` in probability
mode, the (quoted, if textual) class at the arg-max for classification with
classes, and the raw `value[node]` otherwise.  An internal node emits
`(CASE WHEN col op 'threshold' THEN left ELSE right END)` where `op` is `=`
for a textual threshold and `<` otherwise — the threshold literal is quoted in
both cases, exactly as in the source format string. -/
def sqlTreeNode (isRegressor returnProba : Bool) (classes : List Scalar)
    (X : List String) (childrenLeft childrenRight feature : List ℕ)
    (threshold : List Scalar) (value : List NodeVal) (probId : ℕ) :
    ℕ → ℕ → Except PyErr SqlVal
  | 0, _ => .error .fuel
  | Nat.succ fuel, nodeId =>
    match childrenLeft.get? nodeId, childrenRight.get? nodeId with
    | some l, some r =>
      if l = r then
        if returnProba then
          match value.get? nodeId with
          | some (.vec v) =>
            match v.get? probId with
            | some q => .ok (.scalar (.num q))
            | Option.none => .error .indexErr
          | some _ => .error .typeErr
          | Option.none => .error .indexErr
        else
          match value.get? nodeId with
          | some v =>
            if isRegressor = false ∧ 0 < classes.length then
              match v.argmaxIdx with
              | .ok k =>
                match classes.get? k with
                | some (.str s) => .ok (.str ("'" ++ s ++ "'"))
                | some c => .ok (.scalar c)
                | Option.none => .error .indexErr
              | .error e => .error e
            else .ok (.node v)
          | Option.none => .error .indexErr
      else
        match feature.get? nodeId, threshold.get? nodeId with
        | some f, some t =>
          match X.get? f with
          | some col =>
            let op := sqlThresholdOp t
            match sqlTreeNode isRegressor returnProba classes X childrenLeft
                childrenRight feature threshold value probId fuel l,
              sqlTreeNode isRegressor returnProba classes X childrenLeft
                childrenRight feature threshold value probId fuel r with
            | .ok lv, .ok rv =>
              .ok (.str ("(CASE WHEN " ++ col ++ " " ++ op ++ " '" ++ t.pyStr
                    ++ "' THEN " ++ lv.fmt ++ " ELSE " ++ rv.fmt ++ " END)"))
            | .error e, _ => .error e
            | _, .error e => .error e
          | Option.none => .error .indexErr
        | _, _ => .error .indexErr
    | _, _ => .error .indexErr

/-- `n = max([len(l) if l != None else 0 for l in value])` of
memmodel.py:198: the number of per-class expressions to emit.  Fails like
Python on non-list entries (`len` of a float) and on an empty `value`. -/
def probaWidth (value : List NodeVal) : Except PyErr ℕ :=
  match value with
  | [] => .error .valueErr
  | _ =>
    match value.mapM (fun v =>
        match v with
        | .vec l => Except.ok l.length
        | .none => Except.ok 0
        | .num _ => Except.error PyErr.typeErr) with
    | .ok lens => .ok (lens.foldr max 0)
    | .error e => .error e

/-- Output of `sql_from_binary_tree`: a single expression, or one expression
per class index in probability mode. -/
inductive SqlTreeOut where
  | single : SqlVal → SqlTreeOut
  | proba : List SqlVal → SqlTreeOut
deriving DecidableEq

/-- Embedding of `sql_from_binary_tree` (memmodel.py:128-201). -/
def sqlFromBinaryTree (X : List String)
    (childrenLeft childrenRight feature : List ℕ) (threshold : List Scalar)
    (value : List NodeVal) (classes : List Scalar)
    (returnProba isRegressor : Bool) : Except PyErr SqlTreeOut :=
  if returnProba then
    match probaWidth value with
    | .error e => .error e
    | .ok n =>
      ((List.range n).mapM (fun i =>
        sqlTreeNode isRegressor returnProba classes X childrenLeft
          childrenRight feature threshold value i (childrenLeft.length + 1) 0)).map
        SqlTreeOut.proba
  else
    (sqlTreeNode isRegressor returnProba classes X childrenLeft childrenRight
      feature threshold value 0 (childrenLeft.length + 1) 0).map SqlTreeOut.single

/-! ### numpy broadcasting on one-dimensional operands

`a ∘ b` for 1-D arrays: elementwise when the lengths agree, a length-1
operand is stretched, and any other mismatch raises a `ValueError`. -/

def npBroadcast (f : ℚ → ℚ → ℚ) (a b : List ℚ) : Except PyErr (List ℚ) :=
  if a.length = b.length then .ok ((a.zip b).map (fun t => f t.1 t.2))
  else if a.length = 1 then .ok (b.map (fun y => f (a.headD 0) y))
  else if b.length = 1 then .ok (a.map (fun y => f y (b.headD 0)))
  else .error .valueErr

/-- The logistic sigmoid `1 / (1 + exp(-z))`. -/
noncomputable def sigmoidR (z : ℚ) : ℝ := 1 / (1 + Real.exp (-(z : ℝ)))

/-- Output of `predict_from_coef`: raw affine scores for the regression
methods, thresholded 0/1 labels or `[1 - p, p]` pairs for the logistic
methods. -/
inductive CoefOut where
  | raw : List ℚ → CoefOut
  | binary : List ℕ → CoefOut
  | proba : List (ℝ × ℝ) → CoefOut

/-- Embedding of `predict_from_coef` (memmodel.py:204-246).  The affine score
of a row is `intercept + np.sum(coefficients * row)` — note there is no
length check: the product follows numpy broadcasting, so a length-1 operand
silently stretches and only an unbroadcastable pair raises (a `ValueError`,
not the ParameterError of `sql_from_coef`). -/
noncomputable def predictFromCoef (X : List (List ℚ)) (coefficients : List ℚ)
    (intercept : ℚ) (method : String) (returnProba : Bool) :
    Except PyErr CoefOut :=
  if method ∉ ["LinearRegression", "LinearSVR", "LogisticRegression", "LinearSVC"] then
    .error (.param "check_types method")
  else
    match X.mapM (fun row =>
        (npBroadcast (fun c x => c * x) coefficients row).map
          (fun l => intercept + l.sum)) with
    | .error e => .error e
    | .ok result =>
      if method = "LogisticRegression" ∨ method = "LinearSVC" then
        let sig : List ℝ := result.map sigmoidR
        if returnProba then .ok (.proba (sig.map (fun r => (1 - r, r))))
        else
          .ok (.binary (sig.map (fun r =>
            if (1 : ℝ) / 2 < r then 1 else 0)))
      else .ok (.raw result)

/-- Embedding of `sql_from_coef` (memmodel.py:249-283): asserts
`len(X) == len(coefficients)` (a ParameterError — the length-mismatch error)
before building `intercept + c0 * x0 + ...`, wrapped in the logistic link for
the classification methods. -/
def sqlFromCoef (X : List String) (coefficients : List ℚ) (intercept : ℚ)
    (method : String) : Except PyErr String :=
  if method ∉ ["LinearRegression", "LinearSVR", "LogisticRegression", "LinearSVC"] then
    .error (.param "check_types method")
  else if X.length = coefficients.length then
    let sql := String.intercalate " + "
      (qToStr intercept :: (coefficients.zip X).map (fun t => qToStr t.1 ++ " * " ++ t.2))
    if method = "LogisticRegression" ∨ method = "LinearSVC" then
      .ok ("1 / (1 + EXP(- (" ++ sql ++ ")))")
    else .ok sql
  else
    .error (.param "The length of parameter X must be equal to the number of coefficients.")

/-! ### flat cluster models -/

/-- The inner sum of `predict_from_clusters` (memmodel.py:436):
`np.sum((centroid - X) ** p)` for one row — centroid minus row, with no
absolute value. -/
def clusterSumPow (p : ℕ) (c x : List ℚ) : ℚ :=
  ((c.zip x).map (fun t => (t.1 - t.2) ^ p)).sum

/-- The distance of memmodel.py:436: the sum raised to `** (1 / p)`. -/
noncomputable def clusterDist (p : ℕ) (c x : List ℚ) : ℝ :=
  (clusterSumPow p c x : ℝ) ^ ((1 : ℝ) / p)

/-- The Minkowski p-distance `(Σ_j |x_j - c_j| ^ p) ^ (1/p)` as the spec words
it (spec §4.5 and glossary); the comparison point for the distance claim. -/
noncomputable def minkowskiDist (p : ℕ) (x c : List ℚ) : ℝ :=
  ((((x.zip c).map (fun t => |t.1 - t.2| ^ p)).sum : ℚ) : ℝ) ^ ((1 : ℝ) / p)

/-- `1e-99`, the stabiliser of the inverse-distance weights. -/
noncomputable def epsStab : ℝ := 1 / (10 : ℝ) ^ (99 : ℕ)

/-- Python `==` between evolving prediction entries and the relabel key:
numbers compare numerically, strings textually, and a number never equals a
string (so `np.where(result == "1", ...)` matches nothing). -/
def scalarPyEq : Scalar → Scalar → Bool
  | .num a, .num b => decide (a = b)
  | .str a, .str b => decide (a = b)
  | .null, .null => true
  | _, _ => false

/-- The relabel loop of memmodel.py:442-446: for each `(idx, c)` of `classes`,
entries equal to `tmp_idx` are replaced by `c`, where `tmp_idx` is the STRING
`str(idx)` when the classes are strings and `idx > 0` — comparing an integer
entry against a string matches nothing, so only index 0 is relabelled then. -/
def relabelClusters (classes : List Scalar) (preds : List Scalar) : List Scalar :=
  if classes.isEmpty then preds
  else
    let classIsStr : Bool := match classes.head? with
      | some (.str _) => true
      | _ => false
    classes.enum.foldl (fun cur ic =>
      let tmpIdx : Scalar :=
        if classIsStr ∧ 0 < ic.1 then .str (toString ic.1) else .num ic.1
      cur.map (fun e => if scalarPyEq e tmpIdx then ic.2 else e)) preds

open Classical in
/-- Auxiliary loop of `np.argmin` over reals: first index attaining the
minimum. -/
noncomputable def npArgminRGo : List ℝ → ℝ → ℕ → ℕ → ℕ
  | [], _, bi, _ => bi
  | y :: ys, best, bi, i =>
    if y < best then npArgminRGo ys y i (i + 1) else npArgminRGo ys best bi (i + 1)

/-- `np.argmin` over a row of real distances. -/
noncomputable def npArgminR : List ℝ → Option ℕ
  | [] => Option.none
  | x :: xs => some (npArgminRGo xs x 0 1)

/-- Output of `predict_from_clusters`: per-row distance vectors, probability
vectors, or hard assignments (possibly relabelled). -/
inductive ClustersOut where
  | dists : List (List ℝ) → ClustersOut
  | proba : List (List ℝ) → ClustersOut
  | preds : List Scalar → ClustersOut

/-- Embedding of `predict_from_clusters` (memmodel.py:396-447).  The distance
of a row to a centroid is `(Σ_j (c_j - x_j) ^ p) ^ (1/p)` (memmodel.py:436).
Probability mode returns normalised `1 / (d + 1e-99)` weights; otherwise the
default mode takes the arg-min and relabels through `classes`. -/
noncomputable def predictFromClusters (X : List (List ℚ))
    (clusters : List (List ℚ)) (returnDistanceClusters returnProba : Bool)
    (classes : List Scalar) (p : ℕ) : Except PyErr ClustersOut :=
  if returnDistanceClusters ∧ returnProba then
    .error (.param "return_distance_clusters and return_proba cannot both be set to True")
  else
    let result : List (List ℝ) :=
      X.map (fun x => clusters.map (fun c => clusterDist p c x))
    if returnProba then
      .ok (.proba (result.map (fun row =>
        let w := row.map (fun d => 1 / (d + epsStab))
        w.map (fun v => v / w.sum))))
    else if returnDistanceClusters = false then
      match result.mapM npArgminR with
      | some idxs =>
        .ok (.preds (relabelClusters classes (idxs.map (fun i => Scalar.num i))))
      | Option.none => .error .valueErr
    else .ok (.dists result)

/-- Output of `sql_from_clusters`: a list of expressions (distances or
probabilities) or the single hard-assignment CASE expression. -/
inductive SqlClustersOut where
  | many : List String → SqlClustersOut
  | one : String → SqlClustersOut
deriving DecidableEq

/-- Quoting of a class label for SQL (memmodel.py:489-496). -/
def sqlClassLit : Scalar → String
  | .str s => "'" ++ s ++ "'"
  | .null => "NULL"
  | .num q => qToStr q

/-- Embedding of `sql_from_clusters` (memmodel.py:450-522).  The distance
expression of a cluster is `POWER(Σ_j POWER(x_j - c_j, p), p)` — note the
outer exponent is `p` itself (memmodel.py:502), not the `1/p` of the numeric
path.  Hard assignment builds, for each `i`, the conjunction
`AND_(j<i) dist_i <= dist_j`, drops the empty first conjunction, reverses the
list, and emits the CASE that tries `cond_(k-1), ..., cond_1` in this order
(returning `k-1, ..., 1`) with an ELSE of 0. -/
def sqlFromClusters (X : List String) (clusters : List (List ℚ))
    (returnDistanceClusters returnProba : Bool) (classes : List Scalar)
    (p : ℕ) : Except PyErr SqlClustersOut :=
  if ¬ clusters.all (fun c => X.length = c.length) then
    .error (.param "The length of parameter X must be the same as the length of each cluster.")
  else if returnDistanceClusters ∧ returnProba then
    .error (.param "return_distance_clusters and return_proba cannot be set to True")
  else
    let classesTmp : List String := classes.map sqlClassLit
    let clustersDistance : List String := clusters.map (fun c =>
      "POWER(" ++ String.intercalate " + "
        ((X.zip c).map (fun t =>
          "POWER(" ++ t.1 ++ " - " ++ qToStr t.2 ++ ", " ++ toString p ++ ")"))
        ++ ", " ++ toString p ++ ")")
    if returnDistanceClusters then .ok (.many clustersDistance)
    else if returnProba then
      let sumDistance := String.intercalate " + "
        (clustersDistance.map (fun d => "1 / (" ++ d ++ ")"))
      .ok (.many (clustersDistance.map (fun d =>
        "(CASE WHEN " ++ d ++ " = 0 THEN 1.0 ELSE 1 / (" ++ d ++ ") / ("
          ++ sumDistance ++ ") END)")))
    else
      let k := clustersDistance.length
      let conds : List String := (List.range k).map (fun i =>
        String.intercalate " AND " ((List.range i).map (fun j =>
          clustersDistance.getD i "" ++ " <= " ++ clustersDistance.getD j "")))
      let sql := (conds.drop 1).reverse
      let nullClause := String.intercalate " OR " (X.map (fun e => e ++ " IS NULL"))
      let body := String.join ((List.range (k - 1)).map (fun i =>
        " WHEN " ++ sql.getD i "" ++ " THEN "
          ++ (if classes.isEmpty then toString (k - i - 1)
              else classesTmp.getD (k - i - 1) "")))
      .ok (.one ("CASE WHEN " ++ nullClause ++ " THEN NULL" ++ body ++ " ELSE "
        ++ (if classes.isEmpty then "0" else classesTmp.getD 0 "") ++ " END"))

/-- The value of the distance expression
`POWER(POWER(x_0 - c_0, p) + ..., p)` emitted by `sql_from_clusters`
(memmodel.py:497-502), with the row values substituted for the columns. -/
def sqlClustersDistPoly (p : ℕ) (x c : List ℚ) : ℚ :=
  (((x.zip c).map (fun t => (t.1 - t.2) ^ p)).sum) ^ p

/-- The condition `AND_(j<i) ds_i <= ds_j` of the generated CASE chain. -/
def condAt (ds : List ℚ) (i : ℕ) : Bool :=
  (List.range i).all (fun j => decide (ds.getD i 0 ≤ ds.getD j 0))

/-- `i` attains the minimum of `ds`. -/
def isMinAt (ds : List ℚ) (i : ℕ) : Bool :=
  (List.range ds.length).all (fun j => decide (ds.getD i 0 ≤ ds.getD j 0))

/-- Try indices `n, n-1, ..., 1` in order and return the first satisfying
`c`; fall through to 0. -/
def scanDesc (c : ℕ → Bool) : ℕ → ℕ
  | 0 => 0
  | Nat.succ n => if c (n + 1) then n + 1 else scanDesc c n

/-- Semantic evaluation, on a row with no NULL entry, of the hard-assignment
CASE expression emitted by `sql_from_clusters` (memmodel.py:509-522): SQL
tries the branches `WHEN cond_(k-1) THEN k-1`, ..., `WHEN cond_1 THEN 1` in
emission order and falls through to `ELSE 0`, where `cond_i` is the
conjunction `AND_(j<i) ds_i <= ds_j` over the substituted distance values. -/
def sqlClustersCaseEval (ds : List ℚ) : ℕ :=
  scanDesc (condAt ds) (ds.length - 1)

/-! ### transform evaluators (PCA, SVD, Normalizer, One-Hot Encoder) -/

/-- Embedding of `transform_from_pca` (memmodel.py:525-554).  There is no
length check: `X - mean` follows numpy broadcasting.  Column extraction
`pca_values[:, i]` is modelled index-wise (an out-of-range component index
raises). -/
def transformFromPca (X : List (List ℚ)) (principalComponents : List (List ℚ))
    (mean : List ℚ) : Except PyErr (List (List ℚ)) :=
  match principalComponents.head? with
  | Option.none => .error .indexErr
  | some row0 =>
    let n := row0.length
    X.mapM (fun row =>
      match npBroadcast (fun a b => a - b) row mean with
      | .error e => .error e
      | .ok d =>
        (List.range n).mapM (fun i =>
          match principalComponents.mapM (fun r => r.get? i) with
          | Option.none => .error .indexErr
          | some col =>
            match npBroadcast (fun a b => a * b) d col with
            | .ok prods => .ok prods.sum
            | .error e => .error e))

/-- Embedding of `transform_from_svd` (memmodel.py:591-619): like PCA but
`Σ_j x_j * vectors[j][i] / values[i]` without centering; no length check
either (division by a rational 0 is the junk value 0 where numpy warns). -/
def transformFromSvd (X : List (List ℚ)) (vectors : List (List ℚ))
    (values : List ℚ) : Except PyErr (List (List ℚ)) :=
  match vectors.head? with
  | Option.none => .error .indexErr
  | some row0 =>
    let n := row0.length
    X.mapM (fun row =>
      (List.range n).mapM (fun i =>
        match vectors.mapM (fun r => r.get? i), values.get? i with
        | some col, some vi =>
          match npBroadcast (fun a b => a * b) row (col.map (fun c => c / vi)) with
          | .ok prods => .ok prods.sum
          | .error e => .error e
        | _, _ => .error .indexErr))

/-- Embedding of `transform_from_normalizer` (memmodel.py:656-686):
`(X - loc) / scale` with `scale = max - min` for the minmax method; the
subtraction and division broadcast, so there is no explicit length check. -/
def transformFromNormalizer (X : List (List ℚ)) (values : List (ℚ × ℚ))
    (method : String) : Except PyErr (List (List ℚ)) :=
  if method ∉ ["zscore", "robust_zscore", "minmax"] then
    .error (.param "check_types method")
  else
    let a := values.map (fun t => t.1)
    let b0 := values.map (fun t => t.2)
    let b := if method = "minmax" then (b0.zip a).map (fun t => t.1 - t.2) else b0
    X.mapM (fun row =>
      match npBroadcast (fun u v => u - v) row a with
      | .error e => .error e
      | .ok d => npBroadcast (fun u v => u / v) d b)

/-- The indicators one row entry contributes in `ooe_row`
(memmodel.py:751-756): one 0/1 per category of its column, the first category
skipped under `drop_first`. -/
def ooeIndicators (dropFirst : Bool) (elem : Scalar) (cats : List Scalar) :
    List ℚ :=
  cats.enum.filterMap (fun (jc : ℕ × Scalar) =>
    if jc.1 ≠ 0 ∨ dropFirst = false then
      some (if elem.pyStr = jc.2.pyStr then (1 : ℚ) else 0)
    else Option.none)

/-- The `for idx, elem in enumerate(X)` loop of `ooe_row`
(memmodel.py:748-757): `categories[idx]` raises an IndexError when the row is
wider than the category list; a narrower row silently encodes fewer
columns. -/
def ooeRowGo (categories : List (List Scalar)) (dropFirst : Bool) :
    ℕ → List Scalar → Except PyErr (List ℚ)
  | _, [] => .ok []
  | idx, elem :: rest =>
    match categories.get? idx with
    | Option.none => .error .indexErr
    | some cats =>
      match ooeRowGo categories dropFirst (idx + 1) rest with
      | .ok tail => .ok (ooeIndicators dropFirst elem cats ++ tail)
      | .error e => .error e

/-- The inner `ooe_row` of `transform_from_one_hot_encoder`
(memmodel.py:748-757). -/
def ooeRow (categories : List (List Scalar)) (dropFirst : Bool)
    (row : List Scalar) : Except PyErr (List ℚ) :=
  ooeRowGo categories dropFirst 0 row

/-- Embedding of `transform_from_one_hot_encoder` (memmodel.py:724-758). -/
def transformFromOneHotEncoder (X : List (List Scalar))
    (categories : List (List Scalar)) (dropFirst : Bool) :
    Except PyErr (List (List ℚ)) :=
  X.mapM (ooeRow categories dropFirst)

/-- Embedding of `sql_from_pca` (memmodel.py:557-588): asserts
`len(X) == len(mean)` (ParameterError) before emitting, per output component,
`(x_0 - mean_0) * pc[0][i] + ...`. -/
def sqlFromPca (X : List String) (principalComponents : List (List ℚ))
    (mean : List ℚ) : Except PyErr (List String) :=
  if X.length = mean.length then
    (List.range X.length).mapM (fun i =>
      ((List.range X.length).mapM (fun j =>
        match (principalComponents.mapM (fun (r : List ℚ) => r.get? i) : Option (List ℚ)) with
        | Option.none => Except.error PyErr.indexErr
        | some col =>
          match X.get? j, mean.get? j, col.get? j with
          | some xj, some mj, some cj =>
            Except.ok ("(" ++ xj ++ " - " ++ qToStr mj ++ ") * " ++ qToStr cj)
          | _, _, _ => Except.error PyErr.indexErr)).map
        (String.intercalate " + "))
  else
    .error (.param "The length of parameter X must be equal to the length of the vector mean.")

/-- Embedding of `sql_from_svd` (memmodel.py:622-653): asserts
`len(X) == len(values)` (ParameterError) before emitting
`x_0 * vec[0][i] / values[i] + ...` per output component. -/
def sqlFromSvd (X : List String) (vectors : List (List ℚ)) (values : List ℚ) :
    Except PyErr (List String) :=
  if X.length = values.length then
    (List.range X.length).mapM (fun i =>
      ((List.range X.length).mapM (fun j =>
        match (vectors.mapM (fun (r : List ℚ) => r.get? i) : Option (List ℚ)) with
        | Option.none => Except.error PyErr.indexErr
        | some col =>
          match X.get? j, col.get? j, values.get? i with
          | some xj, some cj, some vi =>
            Except.ok (xj ++ " * " ++ qToStr cj ++ " / " ++ qToStr vi)
          | _, _, _ => Except.error PyErr.indexErr)).map
        (String.intercalate " + "))
  else
    .error (.param "The length of parameter X must be equal to the length of the vector values.")

/-- Embedding of `sql_from_normalizer` (memmodel.py:689-721): asserts
`len(X) == len(values)` (ParameterError) before emitting
`(x_i - loc_i) / scale_i`. -/
def sqlFromNormalizer (X : List String) (values : List (ℚ × ℚ))
    (method : String) : Except PyErr (List String) :=
  if method ∉ ["zscore", "robust_zscore", "minmax"] then
    .error (.param "check_types method")
  else if X.length = values.length then
    .ok ((X.zip values).map (fun t =>
      "(" ++ t.1 ++ " - " ++ qToStr t.2.1 ++ ") / "
        ++ qToStr (if method = "minmax" then t.2.2 - t.2.1 else t.2.2)))
  else
    .error (.param "The length of parameter X must be equal to the length of the list values.")

/-- One emitted indicator column of `sql_from_one_hot_encoder`
(memmodel.py:800-812): the CASE expression plus the alias dictated by
`column_naming` (index-suffixed, or category-value-suffixed for both the
`values` and `values_relaxed` modes). -/
def ohePiece (columnNaming : Option String) (x : String) (j : ℕ)
    (cat : Scalar) : String :=
  let base := "(CASE WHEN " ++ x ++ " = " ++ sqlClassLit cat
    ++ " THEN 1 ELSE 0 END)"
  let valName : String := match cat with
    | .null => "NULL"
    | v => v.pyStr
  match columnNaming with
  | some "indices" => base ++ " AS \"" ++ x ++ "_" ++ toString j ++ "\""
  | some "values" => base ++ " AS \"" ++ x ++ "_" ++ valName ++ "\""
  | some "values_relaxed" => base ++ " AS \"" ++ x ++ "_" ++ valName ++ "\""
  | _ => base

/-- Embedding of `sql_from_one_hot_encoder` (memmodel.py:761-814): asserts
`len(X) == len(categories)` (ParameterError) before emitting one
`(CASE WHEN x = cat THEN 1 ELSE 0 END)` per kept category, with the selected
column-naming scheme. -/
def sqlFromOneHotEncoder (X : List String) (categories : List (List Scalar))
    (dropFirst : Bool) (columnNaming : Option String) :
    Except PyErr (List (List String)) :=
  if columnNaming ∉ [some "indices", some "values", some "values_relaxed", Option.none] then
    .error (.param "check_types column_naming")
  else if X.length = categories.length then
    .ok ((X.zip categories).map (fun (xc : String × List Scalar) =>
      xc.2.enum.filterMap (fun (jv : ℕ × Scalar) =>
        if dropFirst = false ∨ 0 < jv.1 then
          some (ohePiece columnNaming xc.1 jv.1 jv.2)
        else Option.none)))
  else
    .error (.param "The length of parameter X must be equal to the length of the list values.")

/-! ### ensembles (random forest, XGBoost) -/

/-- The attribute snapshot of a member tree of an ensemble (a
`BinaryTreeClassifier` / `BinaryTreeRegressor` memModel). -/
structure TreeModel where
  childrenLeft : List ℕ
  childrenRight : List ℕ
  feature : List ℕ
  threshold : List Scalar
  value : List NodeVal
  classes : List Scalar
deriving DecidableEq

/-- `tree.predict_proba(X)` for one row of a member `BinaryTreeClassifier`
(memmodel.py:1204-1205): the raw per-class score vector at the reached leaf.
A non-vector leaf value cannot enter the ensemble's numpy arithmetic. -/
def treeProbaRowQ (t : TreeModel) (row : List Scalar) : Except PyErr (List ℚ) :=
  match predictTreeRow false true t.classes t.childrenLeft t.childrenRight
      t.feature t.threshold t.value (t.childrenLeft.length + 1) 0 row with
  | .ok (.val (.vec l)) => .ok l
  | .ok _ => .error .valueErr
  | .error e => .error e

/-- The one-hot vector `np.zeros_like(v)` with a 1 at index `k`. -/
def oneHot (m k : ℕ) : List ℚ :=
  (List.range m).map (fun i => if i = k then 1 else 0)

/-- `result_tmp_arg[np.arange(...), result_tmp.argmax(1)] = 1` for one row
(memmodel.py:1210-1211): the one-hot vector at the first arg-max. -/
def npOneHotRow (v : List ℚ) : Except PyErr (List ℚ) :=
  match npArgmax v with
  | some k => .ok (oneHot v.length k)
  | Option.none => .error .valueErr

/-- Elementwise matrix addition; numpy raises on a shape mismatch. -/
def matAdd (A B : List (List ℚ)) : Except PyErr (List (List ℚ)) :=
  if A.length = B.length ∧ (A.zip B).all (fun p => p.1.length = p.2.length) then
    .ok ((A.zip B).map (fun p => (p.1.zip p.2).map (fun q => q.1 + q.2)))
  else .error .valueErr

/-- The per-tree body of the `RandomForestClassifier` loop of
`memModel.predict_proba` (memmodel.py:1209-1211): the member's probability
matrix over the rows of `X` is turned into one-hot rows at the arg-max
(`np.zeros_like` requires a rectangular matrix). -/
def rfTreeOneHots (t : TreeModel) (X : List (List Scalar)) :
    Except PyErr (List (List ℚ)) :=
  match X.mapM (treeProbaRowQ t) with
  | .error e => .error e
  | .ok probaM =>
    if probaM.all (fun r => r.length = (probaM.headD []).length) then
      probaM.mapM npOneHotRow
    else .error .valueErr

/-- The accumulation loop of `memModel.predict_proba` for
`RandomForestClassifier` (memmodel.py:1207-1212): each member tree's one-hot
matrix is added onto the accumulator (`None` models the initial Python
scalar `result = 0`). -/
def rfLoop (X : List (List Scalar)) :
    List TreeModel → Option (List (List ℚ)) →
    Except PyErr (Option (List (List ℚ)))
  | [], acc => .ok acc
  | t :: ts, acc =>
    match rfTreeOneHots t X with
    | .error e => .error e
    | .ok oneHots =>
      match acc with
      | Option.none => rfLoop X ts (some oneHots)
      | some A =>
        match matAdd A oneHots with
        | .error e => .error e
        | .ok s => rfLoop X ts (some s)

/-- Embedding of `memModel.predict_proba` for `RandomForestClassifier`
(memmodel.py:1206-1213): the summed one-hot votes divided by the member
count (`result / n` raises on an empty forest). -/
def rfPredictProba (trees : List TreeModel) (X : List (List Scalar)) :
    Except PyErr (List (List ℚ)) :=
  match rfLoop X trees Option.none with
  | .error e => .error e
  | .ok Option.none => .error .zeroDiv
  | .ok (some A) =>
    .ok (A.map (fun r => r.map (fun q => q / (trees.length : ℚ))))

/-- The accumulation loop of `memModel.predict_proba` for `XGBoostClassifier`
(memmodel.py:1215-1217): the raw probability matrices of the member trees are
summed (no one-hot conversion here). -/
def xgbSumLoop (X : List (List Scalar)) :
    List TreeModel → Option (List (List ℚ)) →
    Except PyErr (Option (List (List ℚ)))
  | [], acc => .ok acc
  | t :: ts, acc =>
    match X.mapM (treeProbaRowQ t) with
    | .error e => .error e
    | .ok probaM =>
      match acc with
      | Option.none => xgbSumLoop X ts (some probaM)
      | some A =>
        match matAdd A probaM with
        | .error e => .error e
        | .ok s => xgbSumLoop X ts (some s)

/-- The pre-sigmoid class scores of `memModel.predict_proba` for
`XGBoostClassifier` (memmodel.py:1215-1218):
`logodds + learning_rate * Σ_t tree_t.predict_proba(X)`, row by row. -/
def xgbScores (trees : List TreeModel) (logodds : List ℚ) (lr : ℚ)
    (X : List (List Scalar)) : Except PyErr (List (List ℚ)) :=
  match xgbSumLoop X trees Option.none with
  | .error e => .error e
  | .ok Option.none => .error .valueErr
  | .ok (some A) =>
    A.mapM (fun row => npBroadcast (fun a b => a + b) logodds (row.map (fun q => lr * q)))

/-- Embedding of `memModel.predict_proba` for `XGBoostClassifier`
(memmodel.py:1214-1221): sigmoid of the class scores, then L1 normalisation
across the classes of each row. -/
noncomputable def xgbPredictProba (trees : List TreeModel) (logodds : List ℚ)
    (lr : ℚ) (X : List (List Scalar)) : Except PyErr (List (List ℝ)) :=
  match xgbScores trees logodds lr X with
  | .error e => .error e
  | .ok M =>
    .ok (M.map (fun row =>
      let s := row.map sigmoidR
      s.map (fun v => v / s.sum)))

/-- Semantic evaluation of the per-class probability expression emitted by
the inner `predict_tree` of `sql_from_binary_tree` in probability mode
(memmodel.py:178-196), with the numeric row substituted for the columns:
each `(CASE WHEN col op 'lit' THEN a ELSE b END)` format of the source
becomes the conditional it denotes in SQL (numeric comparison for `<` —
SQL casts the quoted literal back to a number against a numeric column —
and textual equality for `=`), and a leaf contributes the numeric literal
`value[node][prob_ID]`. -/
def treeSqlProbaEval (t : TreeModel) (x : List ℚ) (probId : ℕ) :
    ℕ → ℕ → Except PyErr ℚ
  | 0, _ => .error .fuel
  | Nat.succ fuel, nodeId =>
    match t.childrenLeft.get? nodeId, t.childrenRight.get? nodeId with
    | some l, some r =>
      if l = r then
        match t.value.get? nodeId with
        | some (.vec v) =>
          match v.get? probId with
          | some q => .ok q
          | Option.none => .error .indexErr
        | some _ => .error .typeErr
        | Option.none => .error .indexErr
      else
        match t.feature.get? nodeId, t.threshold.get? nodeId with
        | some f, some thr =>
          match x.get? f with
          | some xv =>
            let cond : Except PyErr Bool :=
              match thr with
              | .str s => .ok (qToStr xv = s)
              | .num b => .ok (decide (xv < b))
              | .null => .error .valueErr
            match cond with
            | .ok true => treeSqlProbaEval t x probId fuel l
            | .ok false => treeSqlProbaEval t x probId fuel r
            | .error e => .error e
          | Option.none => .error .indexErr
        | _, _ => .error .indexErr
    | _, _ => .error .indexErr

/-- The evaluated list `tree.predict_proba_sql(X)` of a member tree: one
value per class index `0 .. n-1`, `n` as computed at memmodel.py:198. -/
def treeSqlProbaList (t : TreeModel) (x : List ℚ) : Except PyErr (List ℚ) :=
  match probaWidth t.value with
  | .error e => .error e
  | .ok n =>
    (List.range n).mapM (fun i =>
      treeSqlProbaEval t x i (t.childrenLeft.length + 1) 0)

/-- Semantic mirror of `memModel.predict_proba_sql` for `XGBoostClassifier`
(memmodel.py:1273-1280), before the sigmoid wrapper and the final
normalisation: class `i`'s emitted expression is
`(1 / (1 + EXP(- (logodds[i] + lr * (" + ".join(all_probas[i])))))` where
`all_probas[i] = trees[i].predict_proba_sql(X)` — the list of per-CLASS
probability expressions of TREE `i` — so this returns, per class `i`, the
evaluated inner score `logodds[i] + lr * sum(all_probas[i])`. -/
def xgbSqlScores (trees : List TreeModel) (logodds : List ℚ) (lr : ℚ)
    (x : List ℚ) : Except PyErr (List ℚ) :=
  match trees.head? with
  | Option.none => .error .indexErr
  | some t0 =>
    let m := t0.classes.length
    match trees.mapM (fun t => treeSqlProbaList t x) with
    | .error e => .error e
    | .ok allProbas =>
      (List.range m).mapM (fun i =>
        match allProbas.get? i, logodds.get? i with
        | some ps, some li => .ok (li + lr * ps.sum)
        | _, _ => .error .indexErr)

/-! ### the model descriptor (`memModel`) -/

/-- A value of the attribute dictionary of a `memModel`.  The `models`
constructor holds the member trees of an ensemble as
`(model_type_, attributes_)` pairs of child memModels. -/
inductive AttrVal where
  | num : ℚ → AttrVal
  | boolV : Bool → AttrVal
  | strV : String → AttrVal
  | noneV : AttrVal
  | numList : List ℚ → AttrVal
  | matrix : List (List ℚ) → AttrVal
  | natList : List ℕ → AttrVal
  | optNatList : List (Option ℕ) → AttrVal
  | scalarList : List Scalar → AttrVal
  | valueList : List NodeVal → AttrVal
  | pairList : List (ℚ × ℚ) → AttrVal
  | catList : List (List Scalar) → AttrVal
  | models : List (String × List (String × AttrVal)) → AttrVal

/-- The attribute dictionary: an association list, looked up left to right
(a merge prepends the overriding entries). -/
abbrev AttrMap := List (String × AttrVal)

/-- Dictionary lookup. -/
def AttrMap.find : AttrMap → String → Option AttrVal
  | [], _ => Option.none
  | (k, v) :: rest, key => if k = key then some v else AttrMap.find rest key

/-- Modelled from the spec: `check_types` (from `verticapy.toolbox`, which is
not under src/) validates that a value has one of the allowed Python types
and raises a validation (`ParameterError`) otherwise; a stored `None` is
accepted where the source deliberately defaults to `None`
(`NearestCentroids` classes, `column_naming`).  This predicate is the
`[list]` type check. -/
def checkIsList : AttrVal → Bool
  | .numList _ => true
  | .matrix _ => true
  | .natList _ => true
  | .optNatList _ => true
  | .scalarList _ => true
  | .valueList _ => true
  | .pairList _ => true
  | .catList _ => true
  | .models _ => true
  | .noneV => true
  | _ => false

/-- Modelled from the spec: the `[int, float]` check of `check_types`
(`verticapy.toolbox`, not under src/).  A Python `bool` is an `int`
instance. -/
def checkIsNum : AttrVal → Bool
  | .num _ => true
  | .boolV _ => true
  | _ => false

/-- Modelled from the spec: the `[int]` check of `check_types`
(`verticapy.toolbox`, not under src/). -/
def checkIsInt : AttrVal → Bool
  | .num q => decide (q.den = 1)
  | .boolV _ => true
  | _ => false

/-- The `[c for c in attributes["classes"]]` copy of memmodel.py:1018:
iterating a list yields an equal list, iterating a string yields its
characters, and iterating `None` or a number raises a TypeError. -/
def copyIter : AttrVal → Except PyErr AttrVal
  | .noneV => .error .typeErr
  | .num _ => .error .typeErr
  | .boolV _ => .error .typeErr
  | .strV s => .ok (.scalarList (s.toList.map (fun ch => Scalar.str (String.singleton ch))))
  | v => .ok v

/-- The closed set of supported family tags (memmodel.py:896-913). -/
def memModelTypes : List String :=
  ["OneHotEncoder", "Normalizer", "SVD", "PCA", "BisectingKMeans", "KMeans",
   "NaiveBayes", "XGBoostClassifier", "XGBoostRegressor",
   "RandomForestClassifier", "BinaryTreeClassifier", "BinaryTreeRegressor",
   "RandomForestRegressor", "LinearSVR", "LinearSVC", "LogisticRegression",
   "LinearRegression", "NearestCentroids"]

/-- The ensemble families (memmodel.py:915). -/
def treesFamilyKinds : List String :=
  ["RandomForestRegressor", "XGBoostRegressor", "RandomForestClassifier",
   "XGBoostClassifier"]

/-- The member-tree model type each ensemble family requires
(memmodel.py:921-924). -/
def childTreeTypeOk (mt : String) (childType : String) : Bool :=
  if mt = "RandomForestClassifier" ∨ mt = "XGBoostClassifier" then
    childType = "BinaryTreeClassifier"
  else childType = "BinaryTreeRegressor"

/-- The ensemble branch of `memModel.__init__` (memmodel.py:915-942):
requires `trees` (memModels of the right type), then the family's
calibration fields (`mean` / `logodds` plus `learning_rate` for XGBoost). -/
def buildTreesAttrs (mt : String) (m : AttrMap) : Except PyErr AttrMap :=
  match AttrMap.find m "trees" with
  | Option.none => .error (.param "attributes must include a list of memModels representing each tree")
  | some tv =>
    match tv with
    | .models ts =>
      if ts.all (fun t => childTreeTypeOk mt t.1) then
        if mt = "XGBoostRegressor" then
          match AttrMap.find m "learning_rate", AttrMap.find m "mean" with
          | some lrv, some mv =>
            if checkIsNum mv then
              if checkIsNum lrv then
                .ok [("trees", AttrVal.models ts), ("mean", mv), ("learning_rate", lrv)]
              else .error (.param "check_types learning_rate")
            else .error (.param "check_types mean")
          | _, _ => .error (.param "attributes must include the response average and the learning rate")
        else if mt = "XGBoostClassifier" then
          match AttrMap.find m "learning_rate", AttrMap.find m "logodds" with
          | some lrv, some lov =>
            if checkIsList lov then
              if checkIsNum lrv then
                .ok [("trees", AttrVal.models ts), ("logodds", lov), ("learning_rate", lrv)]
              else .error (.param "check_types learning_rate")
            else .error (.param "check_types logodds")
          | _, _ => .error (.param "attributes must include the response classes logodds and the learning rate")
        else .ok [("trees", AttrVal.models ts)]
      else .error (.param "each tree of the model must be a BinaryTree model of the matching kind")
    | _ => .error (.param "each tree of the model must be a memModel")

/-- The binary-tree branch of `memModel.__init__` (memmodel.py:943-963):
requires the five parallel arrays (copied verbatim), plus `classes`
defaulting to `[]` for the classifier. -/
def buildBinaryTreeAttrs (mt : String) (m : AttrMap) : Except PyErr AttrMap :=
  match AttrMap.find m "children_left", AttrMap.find m "children_right",
      AttrMap.find m "feature", AttrMap.find m "threshold",
      AttrMap.find m "value" with
  | some cl, some cr, some f, some t, some v =>
    if checkIsList cl ∧ checkIsList cr ∧ checkIsList f ∧ checkIsList t ∧ checkIsList v then
      if mt = "BinaryTreeClassifier" then
        let cls := (AttrMap.find m "classes").getD (AttrVal.scalarList [])
        if checkIsList cls then
          .ok [("children_left", cl), ("children_right", cr), ("feature", f),
               ("threshold", t), ("value", v), ("classes", cls)]
        else .error (.param "check_types classes")
      else
        .ok [("children_left", cl), ("children_right", cr), ("feature", f),
             ("threshold", t), ("value", v)]
    else .error (.param "check_types tree arrays")
  | _, _, _, _, _ =>
    .error (.param "attributes must include at least children_left, children_right, feature, threshold, value")

/-- The one-hot-encoder branch of `memModel.__init__` (memmodel.py:964-979):
requires `categories` (`.copy()` raises on a non-list), defaults
`drop_first` to False and `column_naming` to "indices"; the constructor
allows only "indices", "values" or None for the naming mode. -/
def buildOneHotAttrs (m : AttrMap) : Except PyErr AttrMap :=
  match AttrMap.find m "categories" with
  | Option.none => .error (.param "attributes must include the feature categories")
  | some cv =>
    if checkIsList cv then
      let df := (AttrMap.find m "drop_first").getD (AttrVal.boolV false)
      let cn := (AttrMap.find m "column_naming").getD (AttrVal.strV "indices")
      match df with
      | .boolV _ =>
        if (match cn with
            | AttrVal.strV "indices" => true
            | AttrVal.strV "values" => true
            | AttrVal.noneV => true
            | _ => false) then
          .ok [("categories", cv), ("drop_first", df), ("column_naming", cn)]
        else .error (.param "check_types column_naming")
      | _ => .error (.param "check_types drop_first")
    else .error .typeErr

/-- The linear branch of `memModel.__init__` (memmodel.py:980-987). -/
def buildLinearAttrs (m : AttrMap) : Except PyErr AttrMap :=
  match AttrMap.find m "coefficients", AttrMap.find m "intercept" with
  | some cv, some iv =>
    if checkIsList cv then
      if checkIsNum iv then .ok [("coefficients", cv), ("intercept", iv)]
      else .error (.param "check_types intercept")
    else .error (.param "check_types coefficients")
  | _, _ => .error (.param "attributes must include the coefficients and the intercept value")

/-- The bisecting-k-means branch of `memModel.__init__`
(memmodel.py:988-1002): requires the centroid matrix and both child lists,
defaults `p` to 2. -/
def buildBisectingAttrs (m : AttrMap) : Except PyErr AttrMap :=
  match AttrMap.find m "clusters", AttrMap.find m "left_child",
      AttrMap.find m "right_child" with
  | some cv, some lv, some rv =>
    let pv := (AttrMap.find m "p").getD (AttrVal.num 2)
    if checkIsList cv ∧ checkIsList lv ∧ checkIsList rv then
      if checkIsInt pv then
        .ok [("clusters", cv), ("left_child", lv), ("right_child", rv), ("p", pv)]
      else .error (.param "check_types p")
    else .error (.param "check_types cluster arrays")
  | _, _, _ =>
    .error (.param "attributes must include the clusters centers and the children lists")

/-- The k-means / nearest-centroids branch of `memModel.__init__`
(memmodel.py:1003-1020): requires `clusters`, defaults `p` to 2;
`NearestCentroids` additionally stores `classes` — `None` when absent,
otherwise the list-comprehension copy (which raises on a stored `None`). -/
def buildKMeansAttrs (mt : String) (m : AttrMap) : Except PyErr AttrMap :=
  match AttrMap.find m "clusters" with
  | Option.none => .error (.param "attributes must include the clusters centers")
  | some cv =>
    let pv := (AttrMap.find m "p").getD (AttrVal.num 2)
    if checkIsList cv then
      if checkIsInt pv then
        if mt = "NearestCentroids" then
          match AttrMap.find m "classes" with
          | Option.none => .ok [("clusters", cv), ("p", pv), ("classes", AttrVal.noneV)]
          | some clsv =>
            match copyIter clsv with
            | .ok cls2 =>
              if checkIsList cls2 then
                .ok [("clusters", cv), ("p", pv), ("classes", cls2)]
              else .error (.param "check_types classes")
            | .error e => .error e
        else .ok [("clusters", cv), ("p", pv)]
      else .error (.param "check_types p")
    else .error (.param "check_types clusters")

/-- The PCA branch of `memModel.__init__` (memmodel.py:1021-1028). -/
def buildPcaAttrs (m : AttrMap) : Except PyErr AttrMap :=
  match AttrMap.find m "principal_components", AttrMap.find m "mean" with
  | some pv, some mv =>
    if checkIsList pv ∧ checkIsList mv then
      .ok [("principal_components", pv), ("mean", mv)]
    else .error (.param "check_types pca")
  | _, _ => .error (.param "attributes must include the principal components and the averages")

/-- The SVD branch of `memModel.__init__` (memmodel.py:1029-1036). -/
def buildSvdAttrs (m : AttrMap) : Except PyErr AttrMap :=
  match AttrMap.find m "vectors", AttrMap.find m "values" with
  | some vv, some sv =>
    if checkIsList vv ∧ checkIsList sv then
      .ok [("vectors", vv), ("values", sv)]
    else .error (.param "check_types svd")
  | _, _ => .error (.param "attributes must include the singular vectors and values")

/-- The normalizer branch of `memModel.__init__` (memmodel.py:1037-1044). -/
def buildNormalizerAttrs (m : AttrMap) : Except PyErr AttrMap :=
  match AttrMap.find m "values", AttrMap.find m "method" with
  | some vv, some mev =>
    if checkIsList vv then
      if (match mev with
          | AttrVal.strV "minmax" => true
          | AttrVal.strV "zscore" => true
          | AttrVal.strV "robust_zscore" => true
          | _ => false) then
        .ok [("values", vv), ("method", mev)]
      else .error (.param "check_types method")
    else .error (.param "check_types values")
  | _, _ => .error (.param "attributes must include the aggregations and the method")

/-- Embedding of the validation body of `memModel.__init__`
(memmodel.py:890-1046): rejects an unknown family tag, dispatches to the
family branch, and yields the attribute snapshot stored on success
(`NaiveBayes` passes the tag check but reaches the final
"not yet available" branch). -/
def buildAttributes (mt : String) (m : AttrMap) : Except PyErr AttrMap :=
  if mt ∉ memModelTypes then .error (.param "check_types model_type")
  else if mt ∈ treesFamilyKinds then buildTreesAttrs mt m
  else if mt = "BinaryTreeClassifier" ∨ mt = "BinaryTreeRegressor" then
    buildBinaryTreeAttrs mt m
  else if mt = "OneHotEncoder" then buildOneHotAttrs m
  else if mt = "LinearSVR" ∨ mt = "LinearSVC" ∨ mt = "LogisticRegression"
      ∨ mt = "LinearRegression" then buildLinearAttrs m
  else if mt = "BisectingKMeans" then buildBisectingAttrs m
  else if mt = "KMeans" ∨ mt = "NearestCentroids" then buildKMeansAttrs mt m
  else if mt = "PCA" then buildPcaAttrs m
  else if mt = "SVD" then buildSvdAttrs m
  else if mt = "Normalizer" then buildNormalizerAttrs m
  else .error (.param "Model type is not yet available")

/-- The state of a constructed `memModel`: the family tag and the immutable
attribute snapshot (the human-readable `represent_` summary string is not
modelled; no claim depends on it). -/
structure Descriptor where
  model_type_ : String
  attributes_ : AttrMap

/-- `memModel(model_type, attributes)`: validate and snapshot. -/
def buildDescriptor (mt : String) (m : AttrMap) : Except PyErr Descriptor :=
  match buildAttributes mt m with
  | .ok a => .ok ⟨mt, a⟩
  | .error e => .error e

/-- Embedding of `memModel.set_attributes` (memmodel.py:1067-1082): the new
fields are merged over the existing snapshot (`attributes_tmp`) and
`__init__` revalidates the merged bag with the same family tag. -/
def setAttributes (d : Descriptor) (new : AttrMap) : Except PyErr Descriptor :=
  buildDescriptor d.model_type_ (new ++ d.attributes_)

/-- State-passing form of `set_attributes`: in the source, `__init__` assigns
`self.attributes_` and `self.model_type_` only on its last lines, after all
validation (memmodel.py:1047-1048), so a raised validation error leaves the
object with its previous attributes. -/
def setAttributesState (d : Descriptor) (new : AttrMap) : Descriptor :=
  match setAttributes d new with
  | .ok d2 => d2
  | .error _ => d

/-- Output of `memModel.transform`. -/
inductive TransformOut where
  | mat : List (List ℚ) → TransformOut
  | cl : ClustersOut → TransformOut

/-- Embedding of `memModel.transform` (memmodel.py:1285-1311) on a numeric
feature matrix.  For the cluster families (memmodel.py:1308-1309) the source
call is `predict_from_clusters(X, clusters, return_distance_clusters=True)` —
`p` is NOT forwarded, so the signature default `p = 2` applies regardless of
the stored exponent.  A stored attribute of an unexpected shape is a
downstream TypeError. -/
noncomputable def Descriptor.transform (d : Descriptor) (X : List (List ℚ)) :
    Except PyErr TransformOut :=
  if d.model_type_ = "Normalizer" then
    match AttrMap.find d.attributes_ "values", AttrMap.find d.attributes_ "method" with
    | some (.pairList vs), some (.strV me) =>
      (transformFromNormalizer X vs me).map TransformOut.mat
    | _, _ => .error .typeErr
  else if d.model_type_ = "PCA" then
    match AttrMap.find d.attributes_ "principal_components", AttrMap.find d.attributes_ "mean" with
    | some (.matrix pc), some (.numList mn) =>
      (transformFromPca X pc mn).map TransformOut.mat
    | _, _ => .error .typeErr
  else if d.model_type_ = "SVD" then
    match AttrMap.find d.attributes_ "vectors", AttrMap.find d.attributes_ "values" with
    | some (.matrix vc), some (.numList vals) =>
      (transformFromSvd X vc vals).map TransformOut.mat
    | _, _ => .error .typeErr
  else if d.model_type_ = "OneHotEncoder" then
    match AttrMap.find d.attributes_ "categories", AttrMap.find d.attributes_ "drop_first" with
    | some (.catList cs), some (.boolV df) =>
      (transformFromOneHotEncoder (X.map (fun r => r.map Scalar.num)) cs df).map TransformOut.mat
    | _, _ => .error .typeErr
  else if d.model_type_ = "KMeans" ∨ d.model_type_ = "NearestCentroids"
      ∨ d.model_type_ = "BisectingKMeans" then
    match AttrMap.find d.attributes_ "clusters" with
    | some (.matrix cl) =>
      (predictFromClusters X cl true false [] 2).map TransformOut.cl
    | _ => .error .typeErr
  else .error (.funcErr "transform")

/-- Output of `memModel.transform_sql`. -/
inductive TransformSqlOut where
  | flat : List String → TransformSqlOut
  | nested : List (List String) → TransformSqlOut
  | cl : SqlClustersOut → TransformSqlOut
deriving DecidableEq

/-- Embedding of `memModel.transform_sql` (memmodel.py:1314-1340).  For the
cluster families (memmodel.py:1337-1338) the source call is
`sql_from_clusters(X, clusters, return_distance_clusters=True)` — again with
`p` not forwarded, so the emitted distance expressions use exponent 2. -/
def Descriptor.transformSql (d : Descriptor) (X : List String) :
    Except PyErr TransformSqlOut :=
  if d.model_type_ = "Normalizer" then
    match AttrMap.find d.attributes_ "values", AttrMap.find d.attributes_ "method" with
    | some (.pairList vs), some (.strV me) =>
      (sqlFromNormalizer X vs me).map TransformSqlOut.flat
    | _, _ => .error .typeErr
  else if d.model_type_ = "PCA" then
    match AttrMap.find d.attributes_ "principal_components", AttrMap.find d.attributes_ "mean" with
    | some (.matrix pc), some (.numList mn) =>
      (sqlFromPca X pc mn).map TransformSqlOut.flat
    | _, _ => .error .typeErr
  else if d.model_type_ = "SVD" then
    match AttrMap.find d.attributes_ "vectors", AttrMap.find d.attributes_ "values" with
    | some (.matrix vc), some (.numList vals) =>
      (sqlFromSvd X vc vals).map TransformSqlOut.flat
    | _, _ => .error .typeErr
  else if d.model_type_ = "OneHotEncoder" then
    match AttrMap.find d.attributes_ "categories", AttrMap.find d.attributes_ "drop_first",
        AttrMap.find d.attributes_ "column_naming" with
    | some (.catList cs), some (.boolV df), some cn =>
      match cn with
      | .strV s => (sqlFromOneHotEncoder X cs df (some s)).map TransformSqlOut.nested
      | .noneV => (sqlFromOneHotEncoder X cs df Option.none).map TransformSqlOut.nested
      | _ => .error .typeErr
    | _, _, _ => .error .typeErr
  else if d.model_type_ = "KMeans" ∨ d.model_type_ = "NearestCentroids"
      ∨ d.model_type_ = "BisectingKMeans" then
    match AttrMap.find d.attributes_ "clusters" with
    | some (.matrix cl) =>
      (sqlFromClusters X cl true false [] 2).map TransformSqlOut.cl
    | _ => .error .typeErr
  else .error (.funcErr "transform_sql")

/-! ## Theorems -/

theorem exceptMapM_ok_of_forall {α β : Type} (l : List α)
    (f : α → Except PyErr β) (g : α → β) (h : ∀ a ∈ l, f a = .ok (g a)) :
    l.mapM f = .ok (l.map g) := by
  induction l with
  | nil => rfl
  | cons a t ih =>
    have ha := h a (List.mem_cons_self a t)
    have ht := ih (fun b hb => h b (List.mem_cons_of_mem a hb))
    simp only [List.mapM_cons, ha, ht, List.map_cons]
    rfl

theorem exceptMapM_ok_exists {α β : Type} (l : List α)
    (f : α → Except PyErr β) (h : ∀ a ∈ l, ∃ b, f a = .ok b) :
    ∃ bs, l.mapM f = .ok bs := by
  induction l with
  | nil => exact ⟨[], rfl⟩
  | cons a t ih =>
    obtain ⟨b, hb⟩ := h a (List.mem_cons_self a t)
    obtain ⟨bs, hbs⟩ := ih (fun c hc => h c (List.mem_cons_of_mem a hc))
    refine ⟨b :: bs, ?_⟩
    simp only [List.mapM_cons, hb, hbs]
    rfl

/-- C9: a binary tree whose root is a leaf (`children_left[0] ==
children_right[0]`) predicts `value[0]` on every row, whatever the row
contains (regression mode, the `predict_from_binary_tree` default). -/
theorem binary_tree_single_leaf_predict
    (childrenLeft childrenRight feature : List ℕ) (threshold : List Scalar)
    (value : List NodeVal) (classes : List Scalar) (returnProba : Bool)
    (X : List (List Scalar)) (j : ℕ) (v0 : NodeVal)
    (h0 : childrenLeft[0]? = some j) (h1 : childrenRight[0]? = some j)
    (hv : value[0]? = some v0) :
    predictFromBinaryTree X childrenLeft childrenRight feature threshold value
      classes returnProba true = .ok (X.map (fun _ => PredOut.val v0)) := by
  refine exceptMapM_ok_of_forall X _ _ (fun row _ => ?_)
  show predictTreeRow true returnProba classes childrenLeft childrenRight
      feature threshold value (childrenLeft.length + 1) 0 row = _
  simp [predictTreeRow, List.get?_eq_getElem?, h0, h1, hv]

/-- Witness for C9 at a concrete two-node-free single-leaf tree and two rows. -/
theorem binary_tree_single_leaf_predict_witness :
    ([0] : List ℕ).get? 0 = some 0 ∧
    predictFromBinaryTree [[Scalar.num 5], [Scalar.num 100]] [0] [0] [0]
      [Scalar.num 0] [NodeVal.vec [1, 2]] [] false true
      = .ok [PredOut.val (NodeVal.vec [1, 2]), PredOut.val (NodeVal.vec [1, 2])] :=
  ⟨rfl, binary_tree_single_leaf_predict [0] [0] [0] [Scalar.num 0]
    [NodeVal.vec [1, 2]] [] false [[Scalar.num 5], [Scalar.num 100]] 0
    (NodeVal.vec [1, 2]) rfl rfl rfl⟩

/-- C7 counterexample: at a concrete tree with the numeric threshold 10 the
generated branch reads `x0 < '10'` — the numeric literal IS quoted, whereas
the claim says numeric thresholds are emitted unquoted. -/
theorem sql_binary_tree_quoting_counterexample :
    sqlFromBinaryTree ["x0"] [1, 0, 0] [2, 0, 0] [0, 0, 0]
      [Scalar.num 10, Scalar.num 0, Scalar.num 0]
      [NodeVal.num 7, NodeVal.num 3, NodeVal.num 4] [] false true
      = .ok (.single (.str "(CASE WHEN x0 < '10' THEN 3 ELSE 4 END)")) ∧
    "(CASE WHEN x0 < '10' THEN 3 ELSE 4 END)"
      ≠ "(CASE WHEN x0 < 10 THEN 3 ELSE 4 END)" := by
  constructor
  · rfl
  · decide

/-- C7 amended: an internal root node emits
`(CASE WHEN col op 'lit' THEN left ELSE right END)` with `op` equal to `=`
for a textual threshold and `<` otherwise, and with the threshold literal
QUOTED in both cases (the source format string quotes unconditionally). -/
theorem sql_binary_tree_root_emission (X : List String)
    (childrenLeft childrenRight feature : List ℕ) (threshold : List Scalar)
    (value : List NodeVal) (classes : List Scalar) (isRegressor : Bool)
    (l r f : ℕ) (t : Scalar) (col : String) (lv rv : SqlVal)
    (hl : childrenLeft[0]? = some l) (hr : childrenRight[0]? = some r)
    (hlr : l ≠ r) (hf : feature[0]? = some f)
    (ht : threshold[0]? = some t) (hx : X[f]? = some col)
    (hL : sqlTreeNode isRegressor false classes X childrenLeft childrenRight
      feature threshold value 0 childrenLeft.length l = .ok lv)
    (hR : sqlTreeNode isRegressor false classes X childrenLeft childrenRight
      feature threshold value 0 childrenLeft.length r = .ok rv) :
    sqlFromBinaryTree X childrenLeft childrenRight feature threshold value
      classes false isRegressor
      = .ok (.single (.str ("(CASE WHEN " ++ col ++ " "
          ++ sqlThresholdOp t ++ " '" ++ t.pyStr
          ++ "' THEN " ++ lv.fmt ++ " ELSE " ++ rv.fmt ++ " END)"))) := by
  show (sqlTreeNode isRegressor false classes X childrenLeft childrenRight
      feature threshold value 0 (childrenLeft.length + 1) 0).map SqlTreeOut.single = _
  rw [show childrenLeft.length + 1 = Nat.succ childrenLeft.length from rfl]
  simp only [sqlTreeNode, List.get?_eq_getElem?, hl, hr, hf, ht, hx,
    if_neg hlr, hL, hR]
  rfl

/-- Witness for C7's amended statement at a concrete numeric-threshold root. -/
theorem sql_binary_tree_root_emission_witness :
    (1 : ℕ) ≠ 2 ∧
    sqlFromBinaryTree ["x0"] [1, 0, 0] [2, 0, 0] [0, 0, 0]
      [Scalar.num 10, Scalar.num 0, Scalar.num 0]
      [NodeVal.num 7, NodeVal.num 3, NodeVal.num 4] [] false true
      = .ok (.single (.str ("(CASE WHEN " ++ "x0" ++ " "
          ++ sqlThresholdOp (Scalar.num 10) ++ " '"
          ++ (Scalar.num 10).pyStr ++ "' THEN "
          ++ (SqlVal.node (NodeVal.num 3)).fmt ++ " ELSE "
          ++ (SqlVal.node (NodeVal.num 4)).fmt ++ " END)"))) :=
  ⟨by decide,
    sql_binary_tree_root_emission ["x0"] [1, 0, 0] [2, 0, 0] [0, 0, 0]
      [Scalar.num 10, Scalar.num 0, Scalar.num 0]
      [NodeVal.num 7, NodeVal.num 3, NodeVal.num 4] [] true
      1 2 0 (Scalar.num 10) "x0" (SqlVal.node (NodeVal.num 3))
      (SqlVal.node (NodeVal.num 4)) rfl rfl (by decide) rfl rfl rfl rfl rfl⟩

/-- C5 counterexample: `predict_from_coef` with ONE coefficient and a
two-feature row does not raise any length-mismatch error — numpy broadcasting
silently stretches the single coefficient and the call returns
`1 + 2*1 + 2*1 = 5`, although the feature count (2) differs from the
coefficient count (1). -/
theorem predict_from_coef_no_length_check_counterexample :
    predictFromCoef [[1, 1]] [2] 1 "LinearRegression" false
      = .ok (.raw [5]) ∧
    ([(1 : ℚ), 1] : List ℚ).length ≠ ([(2 : ℚ)] : List ℚ).length := by
  constructor
  · unfold predictFromCoef
    rw [if_neg (by decide)]
    have hb : npBroadcast (fun c x => c * x) [(2 : ℚ)] [1, 1]
        = .ok [2 * 1, 2 * 1] := by
      norm_num [npBroadcast]
    have h2 : ([[(1 : ℚ), 1]].mapM (fun row =>
        (npBroadcast (fun c x => c * x) [2] row).map (fun l => (1 : ℚ) + l.sum)))
        = Except.ok [(5 : ℚ)] := by
      rw [exceptMapM_ok_of_forall [[(1 : ℚ), 1]] _ (fun _ => (5 : ℚ))
        (fun a ha => by
          rw [List.mem_singleton] at ha
          subst ha
          rw [hb]
          show Except.ok ((1 : ℚ) + (2 * 1 + (2 * 1 + 0))) = _
          norm_num)]
      rfl
    rw [h2]
    rfl
  · decide

/-- C5 amended: the expression generator `sql_from_coef` fails with the
length-mismatch ParameterError whenever the feature count differs from the
coefficient count, but the numeric evaluator performs no such check — with a
single coefficient it always succeeds on any row, by broadcasting. -/
theorem linear_length_mismatch_amended (X : List String) (x coefficients : List ℚ)
    (intercept : ℚ) (method : String)
    (hm : method ∈ ["LinearRegression", "LinearSVR", "LogisticRegression", "LinearSVC"]) :
    (X.length ≠ coefficients.length →
      sqlFromCoef X coefficients intercept method
        = .error (.param "The length of parameter X must be equal to the number of coefficients.")) ∧
    (coefficients.length = 1 →
      ∃ out, predictFromCoef [x] coefficients intercept method false = .ok out) := by
  constructor
  · intro hne
    unfold sqlFromCoef
    rw [if_neg (not_not_intro hm), if_neg hne]
  · intro h1
    obtain ⟨c, hc⟩ : ∃ c, coefficients = [c] := by
      cases coefficients with
      | nil => simp at h1
      | cons a t =>
        cases t with
        | nil => exact ⟨a, rfl⟩
        | cons b t2 => simp at h1
    subst hc
    obtain ⟨l, hl⟩ : ∃ l, npBroadcast (fun c x => c * x) [c] x = .ok l := by
      unfold npBroadcast
      by_cases hlen : ([c] : List ℚ).length = x.length
      · exact ⟨_, if_pos hlen⟩
      · refine ⟨x.map (fun y => c * y), ?_⟩
        rw [if_neg hlen, if_pos h1]
        rfl
    have h2 : ([x].mapM (fun row =>
        (npBroadcast (fun c x => c * x) [c] row).map (fun w => intercept + w.sum)))
        = Except.ok [intercept + l.sum] := by
      rw [exceptMapM_ok_of_forall [x] _ (fun _ => intercept + l.sum)
        (fun a ha => by
          rw [List.mem_singleton] at ha
          subst ha
          rw [hl]
          rfl)]
      rfl
    unfold predictFromCoef
    rw [if_neg (not_not_intro hm), h2]
    by_cases hlog : method = "LogisticRegression" ∨ method = "LinearSVC"
    · refine ⟨CoefOut.binary (([intercept + l.sum].map sigmoidR).map
        (fun r => if (1 : ℝ) / 2 < r then 1 else 0)), ?_⟩
      show (if method = "LogisticRegression" ∨ method = "LinearSVC"
          then _ else _) = _
      rw [if_pos hlog]
      rfl
    · refine ⟨CoefOut.raw [intercept + l.sum], ?_⟩
      show (if method = "LogisticRegression" ∨ method = "LinearSVC"
          then _ else _) = _
      rw [if_neg hlog]

/-- Witness for C5's amended statement: the expression generator rejects a
2-vs-1 mismatch, and the numeric evaluator succeeds on the same shapes. -/
theorem linear_length_mismatch_amended_witness :
    (["x0", "x1"] : List String).length ≠ ([(2 : ℚ)] : List ℚ).length ∧
    sqlFromCoef ["x0", "x1"] [2] 1 "LinearRegression"
      = .error (.param "The length of parameter X must be equal to the number of coefficients.") ∧
    ∃ out, predictFromCoef [[1, 1]] [2] 1 "LinearRegression" false = .ok out := by
  have h := linear_length_mismatch_amended ["x0", "x1"] [1, 1] [2] 1
    "LinearRegression" (by decide)
  exact ⟨by decide, h.1 (by decide), h.2 (by decide)⟩

/-- C6 counterexample: the numeric one-hot transform with a row of width 1
against a category list of width 2 raises nothing — it silently encodes only
the first column — although the claim says every width mismatch fails with a
length-mismatch error. -/
theorem transform_width_check_counterexample :
    transformFromOneHotEncoder [[Scalar.str "a"]]
      [[Scalar.str "a"], [Scalar.str "b"]] false = .ok [[1]] ∧
    ([Scalar.str "a"] : List Scalar).length
      ≠ ([[Scalar.str "a"], [Scalar.str "b"]] : List (List Scalar)).length := by
  constructor
  · rfl
  · decide

/-- C6 amended: the length checks live in the four EXPRESSION generators
(`sql_from_pca` / `sql_from_svd` / `sql_from_normalizer` /
`sql_from_one_hot_encoder` all fail with the length-mismatch ParameterError
on a width mismatch); the numeric transforms perform no such check — in
particular the numeric one-hot transform succeeds on every row no wider than
its category list. -/
theorem transform_length_checks_amended :
    (∀ (X : List String) (pc : List (List ℚ)) (mean : List ℚ),
      X.length ≠ mean.length →
      ∃ msg, sqlFromPca X pc mean = .error (.param msg)) ∧
    (∀ (X : List String) (vectors : List (List ℚ)) (values : List ℚ),
      X.length ≠ values.length →
      ∃ msg, sqlFromSvd X vectors values = .error (.param msg)) ∧
    (∀ (X : List String) (values : List (ℚ × ℚ)) (method : String),
      method ∈ ["zscore", "robust_zscore", "minmax"] →
      X.length ≠ values.length →
      ∃ msg, sqlFromNormalizer X values method = .error (.param msg)) ∧
    (∀ (X : List String) (categories : List (List Scalar)) (dropFirst : Bool)
        (columnNaming : Option String),
      columnNaming ∈ [some "indices", some "values", some "values_relaxed", Option.none] →
      X.length ≠ categories.length →
      ∃ msg, sqlFromOneHotEncoder X categories dropFirst columnNaming
        = .error (.param msg)) ∧
    (∀ (X : List (List Scalar)) (categories : List (List Scalar)) (dropFirst : Bool),
      (∀ row ∈ X, row.length ≤ categories.length) →
      ∃ out, transformFromOneHotEncoder X categories dropFirst = .ok out) := by
  refine ⟨?_, ?_, ?_, ?_, ?_⟩
  · intro X pc mean hne
    refine ⟨"The length of parameter X must be equal to the length of the vector mean.", ?_⟩
    unfold sqlFromPca
    rw [if_neg hne]
  · intro X vectors values hne
    refine ⟨"The length of parameter X must be equal to the length of the vector values.", ?_⟩
    unfold sqlFromSvd
    rw [if_neg hne]
  · intro X values method hmet hne
    refine ⟨"The length of parameter X must be equal to the length of the list values.", ?_⟩
    unfold sqlFromNormalizer
    rw [if_neg (not_not_intro hmet), if_neg hne]
  · intro X categories dropFirst columnNaming hcn hne
    refine ⟨"The length of parameter X must be equal to the length of the list values.", ?_⟩
    unfold sqlFromOneHotEncoder
    rw [if_neg (not_not_intro hcn), if_neg hne]
  · intro X categories dropFirst hw
    refine exceptMapM_ok_exists X _ (fun row hrow => ?_)
    have key : ∀ (r : List Scalar) (idx : ℕ),
        idx + r.length ≤ categories.length →
        ∃ b, ooeRowGo categories dropFirst idx r = .ok b := by
      intro r
      induction r with
      | nil => exact fun idx _ => ⟨[], rfl⟩
      | cons elem rest ih =>
        intro idx hle
        obtain ⟨cats, hcats⟩ : ∃ cats, categories.get? idx = some cats := by
          have hidx : idx < categories.length := by
            simp only [List.length_cons] at hle
            omega
          exact ⟨_, by rw [List.get?_eq_getElem?]; exact List.getElem?_eq_getElem hidx⟩
        obtain ⟨tail, htail⟩ := ih (idx + 1) (by
          simp only [List.length_cons] at hle
          omega)
        refine ⟨ooeIndicators dropFirst elem cats ++ tail, ?_⟩
        unfold ooeRowGo
        rw [hcats, htail]
    obtain ⟨b, hb⟩ := key row 0 (by simpa using hw row hrow)
    exact ⟨b, hb⟩

/-- Witness for C6's amended statement: all four expression generators reject
a 1-vs-2 width mismatch, while the numeric one-hot transform accepts a
narrower row. -/
theorem transform_length_checks_amended_witness :
    (["x0"] : List String).length ≠ ([(0 : ℚ), 1] : List ℚ).length ∧
    (∃ msg, sqlFromPca ["x0"] [[1]] [0, 1] = .error (.param msg)) ∧
    (∃ msg, sqlFromSvd ["x0"] [[1]] [1, 2] = .error (.param msg)) ∧
    (∃ msg, sqlFromNormalizer ["x0"] [(0, 1), (0, 2)] "zscore" = .error (.param msg)) ∧
    (∃ msg, sqlFromOneHotEncoder ["x0"] [[Scalar.str "a"], [Scalar.str "b"]]
      false (some "indices") = .error (.param msg)) ∧
    (∃ out, transformFromOneHotEncoder [[Scalar.str "a"]]
      [[Scalar.str "a"], [Scalar.str "b"]] false = .ok out) := by
  refine ⟨by decide, ?_, ?_, ?_, ?_, ?_⟩
  · exact transform_length_checks_amended.1 ["x0"] [[1]] [0, 1] (by decide)
  · exact transform_length_checks_amended.2.1 ["x0"] [[1]] [1, 2] (by decide)
  · exact transform_length_checks_amended.2.2.1 ["x0"] [(0, 1), (0, 2)] "zscore"
      (by decide) (by decide)
  · exact transform_length_checks_amended.2.2.2.1 ["x0"]
      [[Scalar.str "a"], [Scalar.str "b"]] false (some "indices") (by decide) (by decide)
  · refine transform_length_checks_amended.2.2.2.2 [[Scalar.str "a"]]
      [[Scalar.str "a"], [Scalar.str "b"]] false (fun row hrow => ?_)
    rw [List.mem_singleton] at hrow
    subst hrow
    decide

/-- C1 (code bug): at a concrete `XGBoostClassifier` with two 3-node member
trees whose leaf score vectors are `[1, 2]` and `[5, 7]`, zero logodds and
learning rate 1, the numeric `predict_proba` computes the pre-sigmoid class
scores `[1+5, 2+7] = [6, 9]`, while the expression emitted by
`predict_proba_sql` evaluates to the scores `[1+2, 5+7] = [3, 12]`: the
source joins `all_probas[i]` — the per-class expressions of TREE i — instead
of class i's expressions across the trees, so the two modes disagree. -/
theorem xgb_proba_sql_mismatch :
    xgbScores
      [⟨[1, 0, 0], [2, 0, 0], [0, 0, 0],
        [Scalar.num 10, Scalar.num 0, Scalar.num 0],
        [NodeVal.none, NodeVal.vec [1, 2], NodeVal.vec [1, 2]],
        [Scalar.num 0, Scalar.num 1]⟩,
       ⟨[1, 0, 0], [2, 0, 0], [0, 0, 0],
        [Scalar.num 10, Scalar.num 0, Scalar.num 0],
        [NodeVal.none, NodeVal.vec [5, 7], NodeVal.vec [5, 7]],
        [Scalar.num 0, Scalar.num 1]⟩]
      [0, 0] 1 [[Scalar.num 0]] = .ok [[6, 9]] ∧
    xgbSqlScores
      [⟨[1, 0, 0], [2, 0, 0], [0, 0, 0],
        [Scalar.num 10, Scalar.num 0, Scalar.num 0],
        [NodeVal.none, NodeVal.vec [1, 2], NodeVal.vec [1, 2]],
        [Scalar.num 0, Scalar.num 1]⟩,
       ⟨[1, 0, 0], [2, 0, 0], [0, 0, 0],
        [Scalar.num 10, Scalar.num 0, Scalar.num 0],
        [NodeVal.none, NodeVal.vec [5, 7], NodeVal.vec [5, 7]],
        [Scalar.num 0, Scalar.num 1]⟩]
      [0, 0] 1 [0] = .ok [3, 12] ∧
    ([(6 : ℚ), 9] : List ℚ) ≠ [3, 12] := by
  refine ⟨?_, ?_, by norm_num⟩
  · rw [show xgbScores
      [⟨[1, 0, 0], [2, 0, 0], [0, 0, 0],
        [Scalar.num 10, Scalar.num 0, Scalar.num 0],
        [NodeVal.none, NodeVal.vec [1, 2], NodeVal.vec [1, 2]],
        [Scalar.num 0, Scalar.num 1]⟩,
       ⟨[1, 0, 0], [2, 0, 0], [0, 0, 0],
        [Scalar.num 10, Scalar.num 0, Scalar.num 0],
        [NodeVal.none, NodeVal.vec [5, 7], NodeVal.vec [5, 7]],
        [Scalar.num 0, Scalar.num 1]⟩]
      [0, 0] 1 [[Scalar.num 0]]
      = Except.ok [[(0 : ℚ) + 1 * (1 + 5), 0 + 1 * (2 + 7)]] from rfl]
    norm_num
  · rw [show xgbSqlScores
      [⟨[1, 0, 0], [2, 0, 0], [0, 0, 0],
        [Scalar.num 10, Scalar.num 0, Scalar.num 0],
        [NodeVal.none, NodeVal.vec [1, 2], NodeVal.vec [1, 2]],
        [Scalar.num 0, Scalar.num 1]⟩,
       ⟨[1, 0, 0], [2, 0, 0], [0, 0, 0],
        [Scalar.num 10, Scalar.num 0, Scalar.num 0],
        [NodeVal.none, NodeVal.vec [5, 7], NodeVal.vec [5, 7]],
        [Scalar.num 0, Scalar.num 1]⟩]
      [0, 0] 1 [0]
      = Except.ok [(0 : ℚ) + 1 * ([(1 : ℚ), 2].sum), 0 + 1 * ([(5 : ℚ), 7].sum)] from rfl]
    norm_num

/-- C3 counterexample: with two IDENTICAL centroids every row ties; the
emitted CASE tries the chain top-down and its only condition
`dist_1 <= dist_0` holds on a tie, so the expression evaluates to cluster 1 —
the HIGHEST tied index — while the claim says the lowest (0) wins. -/
theorem sql_clusters_tie_counterexample :
    sqlFromClusters ["x0", "x1"] [[0, 0], [0, 0]] false false [] 2
      = .ok (.one ("CASE WHEN x0 IS NULL OR x1 IS NULL THEN NULL WHEN POWER(POWER(x0 - 0, 2) + POWER(x1 - 0, 2), 2) <= POWER(POWER(x0 - 0, 2) + POWER(x1 - 0, 2), 2) THEN 1 ELSE 0 END")) ∧
    ([[0, 0], [0, 0]].map (sqlClustersDistPoly 2 [1, 1])) = [4, 4] ∧
    sqlClustersCaseEval ([[0, 0], [0, 0]].map (sqlClustersDistPoly 2 [1, 1])) = 1 ∧
    (1 : ℕ) ≠ 0 := by
  have hmap : ([[(0 : ℚ), 0], [0, 0]].map (sqlClustersDistPoly 2 [1, 1])) = [4, 4] := by
    norm_num [sqlClustersDistPoly]
  refine ⟨rfl, hmap, ?_, by norm_num⟩
  rw [hmap]
  norm_num [sqlClustersCaseEval, scanDesc, condAt]

/-- C8 counterexample: with exponent `p = 1`, centroid `[0]` and row `[1]`,
the numeric distance of `predict_from_clusters` is
`((0 - 1) ** 1) ** (1/1) = -1` — there is no absolute value in the source —
while the Minkowski 1-distance of the claim is `|1 - 0| = 1`. -/
theorem cluster_distance_abs_counterexample :
    predictFromClusters [[1]] [[0]] true false [] 1
      = .ok (.dists [[(-1 : ℝ)]]) ∧
    minkowskiDist 1 [1] [0] = 1 ∧ ((-1 : ℝ) ≠ 1) := by
  refine ⟨?_, ?_, by norm_num⟩
  · have hd : clusterDist 1 [0] [1] = (-1 : ℝ) := by
      unfold clusterDist
      rw [show clusterSumPow 1 [0] [1] = -1 by norm_num [clusterSumPow]]
      rw [Nat.cast_one, div_one, Real.rpow_one]
      norm_num
    rw [show predictFromClusters [[1]] [[0]] true false [] 1
      = .ok (.dists [[clusterDist 1 [0] [1]]]) from rfl, hd]
  · unfold minkowskiDist
    rw [show ((([(1 : ℚ)].zip [(0 : ℚ)]).map (fun t => |t.1 - t.2| ^ (1 : ℕ))).sum : ℚ)
      = 1 by norm_num]
    rw [Nat.cast_one, div_one]
    push_cast
    rw [Real.rpow_one]

/-- C8 amended: the numeric cluster distance is `(Σ_j (c_j - x_j) ^ p) ^ (1/p)`
with NO absolute value; for every even `p` this coincides with the Minkowski
p-distance of the claim (and the counterexample above shows it differs for
odd `p`). -/
theorem cluster_distance_even_p_amended (p : ℕ) (x c : List ℚ) (hp : Even p) :
    clusterSumPow p c x = ((x.zip c).map (fun t => |t.1 - t.2| ^ p)).sum ∧
    clusterDist p c x = minkowskiDist p x c := by
  have hsum : clusterSumPow p c x = ((x.zip c).map (fun t => |t.1 - t.2| ^ p)).sum := by
    induction c generalizing x with
    | nil => cases x <;> rfl
    | cons a c2 ih =>
      cases x with
      | nil => rfl
      | cons b x2 =>
        show (a - b) ^ p + clusterSumPow p c2 x2 = |b - a| ^ p + _
        rw [ih x2]
        congr 1
        rw [hp.pow_abs, show b - a = -(a - b) by ring, hp.neg_pow]
  refine ⟨hsum, ?_⟩
  unfold clusterDist minkowskiDist
  rw [hsum]

/-- Witness for C8's amended statement at `p = 2`. -/
theorem cluster_distance_even_p_amended_witness :
    Even 2 ∧ clusterDist 2 [0, 0] [3, 4] = minkowskiDist 2 [3, 4] [0, 0] :=
  ⟨⟨1, rfl⟩, (cluster_distance_even_p_amended 2 [3, 4] [0, 0] ⟨1, rfl⟩).2⟩

/-- C10: for every constructed cluster-family Descriptor, whatever exponent
`p` its snapshot stores, `transform` and `transform_sql` compute the
distances with the DEFAULT exponent 2 — the dispatch omits `p` in both calls
(memmodel.py:1308-1309 and 1337-1338). -/
theorem transform_uses_default_exponent (mt : String) (a0 : AttrMap)
    (d : Descriptor) (_h : buildDescriptor mt a0 = .ok d)
    (hfam : d.model_type_ = "KMeans" ∨ d.model_type_ = "NearestCentroids"
      ∨ d.model_type_ = "BisectingKMeans")
    (cl : List (List ℚ))
    (hcl : AttrMap.find d.attributes_ "clusters" = some (.matrix cl))
    (p : ℚ) (_hp : AttrMap.find d.attributes_ "p" = some (.num p))
    (X : List (List ℚ)) (cols : List String) :
    d.transform X = (predictFromClusters X cl true false [] 2).map TransformOut.cl ∧
    d.transformSql cols
      = (sqlFromClusters cols cl true false [] 2).map TransformSqlOut.cl := by
  constructor
  · unfold Descriptor.transform
    rcases hfam with hk | hk | hk <;> rw [hk] <;> simp [hcl]
  · unfold Descriptor.transformSql
    rcases hfam with hk | hk | hk <;> rw [hk] <;> simp [hcl]

/-- Witness for C10 at a concrete KMeans Descriptor whose stored exponent is
7. -/
theorem transform_uses_default_exponent_witness :
    buildDescriptor "KMeans"
      [("clusters", AttrVal.matrix [[0, 0], [3, 4]]), ("p", AttrVal.num 7)]
      = .ok ⟨"KMeans", [("clusters", AttrVal.matrix [[0, 0], [3, 4]]),
          ("p", AttrVal.num 7)]⟩ ∧
    Descriptor.transform ⟨"KMeans", [("clusters", AttrVal.matrix [[0, 0], [3, 4]]),
        ("p", AttrVal.num 7)]⟩ [[1, 1]]
      = (predictFromClusters [[1, 1]] [[0, 0], [3, 4]] true false [] 2).map TransformOut.cl ∧
    Descriptor.transformSql ⟨"KMeans", [("clusters", AttrVal.matrix [[0, 0], [3, 4]]),
        ("p", AttrVal.num 7)]⟩ ["x0", "x1"]
      = (sqlFromClusters ["x0", "x1"] [[0, 0], [3, 4]] true false [] 2).map TransformSqlOut.cl := by
  have h : buildDescriptor "KMeans"
      [("clusters", AttrVal.matrix [[0, 0], [3, 4]]), ("p", AttrVal.num 7)]
      = .ok ⟨"KMeans", [("clusters", AttrVal.matrix [[0, 0], [3, 4]]),
          ("p", AttrVal.num 7)]⟩ := rfl
  have h2 := transform_uses_default_exponent "KMeans" _ _ h (Or.inl rfl)
    [[0, 0], [3, 4]] rfl 7 rfl [[1, 1]] ["x0", "x1"]
  exact ⟨h, h2.1, h2.2⟩

theorem scanDesc_succ (c : ℕ → Bool) (n : ℕ) :
    scanDesc c (n + 1) = if c (n + 1) then n + 1 else scanDesc c n := rfl

theorem scanDesc_found (c : ℕ → Bool) (n : ℕ) :
    scanDesc c n = 0 ∨ c (scanDesc c n) = true := by
  induction n with
  | zero => exact Or.inl rfl
  | succ n ih =>
    rw [scanDesc_succ]
    by_cases h : c (n + 1) = true
    · rw [if_pos h]
      exact Or.inr h
    · rw [if_neg h]
      exact ih

theorem scanDesc_le (c : ℕ → Bool) (n : ℕ) : scanDesc c n ≤ n := by
  induction n with
  | zero => exact Nat.le_refl 0
  | succ n ih =>
    rw [scanDesc_succ]
    by_cases h : c (n + 1) = true
    · rw [if_pos h]
    · rw [if_neg h]
      exact Nat.le_trans ih (Nat.le_succ n)

theorem scanDesc_above_false (c : ℕ → Bool) (n : ℕ) :
    ∀ i, scanDesc c n < i → i ≤ n → c i = false := by
  induction n with
  | zero => intro i h1 h2; omega
  | succ n ih =>
    intro i h1 h2
    by_cases hc : c (n + 1) = true
    · have hs : scanDesc c (n + 1) = n + 1 := by
        rw [scanDesc_succ, if_pos hc]
      omega
    · have hs : scanDesc c (n + 1) = scanDesc c n := by
        rw [scanDesc_succ, if_neg hc]
      rw [hs] at h1
      rcases Nat.lt_or_ge i (n + 1) with hlt | hge
      · exact ih i h1 (by omega)
      · have hie : i = n + 1 := by omega
        subst hie
        exact Bool.eq_false_iff.mpr hc

theorem condAt_of_isMinAt (ds : List ℚ) (i : ℕ) (hle : i ≤ ds.length)
    (h : isMinAt ds i = true) : condAt ds i = true := by
  unfold isMinAt at h
  unfold condAt
  rw [List.all_eq_true] at h ⊢
  intro j hj
  exact h j (List.mem_range.mpr (Nat.lt_of_lt_of_le (List.mem_range.mp hj) hle))

theorem isMinAt_of_condAt (ds : List ℚ) (i0 i : ℕ) (h0 : isMinAt ds i0 = true)
    (hlt : i0 < i) (hc : condAt ds i = true) : isMinAt ds i = true := by
  unfold isMinAt at h0 ⊢
  unfold condAt at hc
  rw [List.all_eq_true] at h0 hc ⊢
  intro j hj
  have h1 : ds.getD i 0 ≤ ds.getD i0 0 := by
    have := hc i0 (List.mem_range.mpr hlt)
    exact of_decide_eq_true this
  have h2 : ds.getD i0 0 ≤ ds.getD j 0 := of_decide_eq_true (h0 j hj)
  exact decide_eq_true (le_trans h1 h2)

theorem exists_isMinAt (ds : List ℚ) (h : ds ≠ []) :
    ∃ i, i < ds.length ∧ isMinAt ds i = true := by
  obtain ⟨i, hi, hmin⟩ := Finset.exists_min_image (Finset.range ds.length)
    (fun j => ds.getD j 0) ⟨0, Finset.mem_range.mpr (List.length_pos.mpr h)⟩
  refine ⟨i, Finset.mem_range.mp hi, ?_⟩
  unfold isMinAt
  rw [List.all_eq_true]
  intro j hj
  exact decide_eq_true (hmin j (Finset.mem_range.mpr (List.mem_range.mp hj)))

/-- C3 amended: on a row with no NULL entry, the hard-assignment CASE emitted
by `sql_from_clusters` evaluates to an index attaining the minimal distance
value, and NO LARGER index attains it: on a tie the HIGHEST tied cluster
index wins (the CASE tries `cond_(k-1), ..., cond_1` in this order), not the
lowest as the claim states. -/
theorem sql_clusters_tie_break_amended (p : ℕ) (x : List ℚ)
    (clusters : List (List ℚ)) (hne : clusters ≠ []) (ds : List ℚ)
    (hds : ds = clusters.map (sqlClustersDistPoly p x)) :
    isMinAt ds (sqlClustersCaseEval ds) = true ∧
    ∀ i, sqlClustersCaseEval ds < i → i < ds.length → isMinAt ds i = false := by
  have hdsne : ds ≠ [] := by
    rw [hds]
    intro hemp
    exact hne (List.map_eq_nil_iff.mp hemp)
  have hk1 : 1 ≤ ds.length := List.length_pos.mpr hdsne
  obtain ⟨i0, hi0k, hi0⟩ := exists_isMinAt ds hdsne
  have hrle : sqlClustersCaseEval ds ≤ ds.length - 1 := scanDesc_le _ _
  have hcondf : ∀ i, sqlClustersCaseEval ds < i → i < ds.length →
      condAt ds i = false := by
    intro i h1 h2
    exact scanDesc_above_false (condAt ds) (ds.length - 1) i h1 (by omega)
  have hminr : isMinAt ds (sqlClustersCaseEval ds) = true := by
    rcases Nat.lt_or_ge (sqlClustersCaseEval ds) i0 with hlt | hge
    · have hci0 : condAt ds i0 = true :=
        condAt_of_isMinAt ds i0 (by omega) hi0
      rw [hcondf i0 hlt hi0k] at hci0
      exact absurd hci0 (by simp)
    · rcases Nat.eq_or_lt_of_le hge with heq | hlt2
      · rw [heq] at hi0
        exact hi0
      · have hcr : condAt ds (sqlClustersCaseEval ds) = true := by
          rcases scanDesc_found (condAt ds) (ds.length - 1) with h0 | hfound
          · unfold sqlClustersCaseEval at hlt2
            omega
          · exact hfound
        exact isMinAt_of_condAt ds i0 (sqlClustersCaseEval ds) hi0 hlt2 hcr
  refine ⟨hminr, fun i h1 h2 => ?_⟩
  by_cases hmi : isMinAt ds i = true
  · have hci := condAt_of_isMinAt ds i (by omega) hmi
    rw [hcondf i h1 h2] at hci
    exact absurd hci (by simp)
  · exact Bool.eq_false_iff.mpr hmi

/-- Witness for C3's amended statement on the concrete tied input. -/
theorem sql_clusters_tie_break_amended_witness :
    (([[(0 : ℚ), 0], [0, 0]] : List (List ℚ)) ≠ []) ∧
    isMinAt ([[(0 : ℚ), 0], [0, 0]].map (sqlClustersDistPoly 2 [1, 1]))
      (sqlClustersCaseEval ([[(0 : ℚ), 0], [0, 0]].map (sqlClustersDistPoly 2 [1, 1])))
      = true ∧
    ∀ i, sqlClustersCaseEval ([[(0 : ℚ), 0], [0, 0]].map (sqlClustersDistPoly 2 [1, 1])) < i →
      i < ([[(0 : ℚ), 0], [0, 0]].map (sqlClustersDistPoly 2 [1, 1])).length →
      isMinAt ([[(0 : ℚ), 0], [0, 0]].map (sqlClustersDistPoly 2 [1, 1])) i = false := by
  have h := sql_clusters_tie_break_amended 2 [1, 1] [[0, 0], [0, 0]]
    (List.cons_ne_nil _ _) _ rfl
  exact ⟨List.cons_ne_nil _ _, h.1, h.2⟩

theorem npArgmax_isSome (v : List ℚ) (h : v ≠ []) :
    ∃ k, npArgmax v = some k := by
  cases v with
  | nil => exact absurd rfl h
  | cons a as => exact ⟨_, rfl⟩

theorem oneHot_length (m k : ℕ) : (oneHot m k).length = m := by
  simp [oneHot]

theorem oneHot_getD (m k j : ℕ) (hj : j < m) :
    (oneHot m k).getD j 0 = if j = k then 1 else 0 := by
  unfold oneHot
  rw [List.getD_eq_getElem?_getD, List.getElem?_map, List.getElem?_range hj]
  rfl

theorem vecAdd_getD (w u : List ℚ) (k : ℕ) (hlen : w.length = u.length)
    (hk : k < w.length) :
    ((w.zip u).map (fun q => q.1 + q.2)).getD k 0 = w.getD k 0 + u.getD k 0 := by
  induction w generalizing u k with
  | nil => simp at hk
  | cons a w2 ih =>
    cases u with
    | nil => simp at hlen
    | cons b u2 =>
      cases k with
      | zero => rfl
      | succ k2 =>
        have := ih u2 k2 (by simpa using hlen) (by simpa using hk)
        simpa using this

theorem vecAdd_length (w u : List ℚ) :
    ((w.zip u).map (fun q => q.1 + q.2)).length = min w.length u.length := by
  simp

theorem rfLoop_cons (X : List (List Scalar)) (t : TreeModel)
    (ts : List TreeModel) (acc : Option (List (List ℚ))) :
    rfLoop X (t :: ts) acc
      = match rfTreeOneHots t X with
        | .error e => .error e
        | .ok oneHots =>
          match acc with
          | Option.none => rfLoop X ts (some oneHots)
          | some A =>
            match matAdd A oneHots with
            | .error e => .error e
            | .ok s => rfLoop X ts (some s) := rfl

theorem rfTreeOneHots_single (t : TreeModel) (x : List Scalar) (v : List ℚ)
    (hv : treeProbaRowQ t x = .ok v) (hvne : v ≠ []) :
    rfTreeOneHots t [x] = .ok [oneHot v.length ((npArgmax v).getD 0)] := by
  obtain ⟨k, hk⟩ := npArgmax_isSome v hvne
  have hmapm : [x].mapM (treeProbaRowQ t) = .ok [v] := by
    rw [exceptMapM_ok_of_forall [x] _ (fun _ => v) (fun a ha => by
      rw [List.mem_singleton] at ha
      subst ha
      exact hv)]
    rfl
  have hone : npOneHotRow v = .ok (oneHot v.length ((npArgmax v).getD 0)) := by
    unfold npOneHotRow
    rw [hk]
    rfl
  have honemap : [v].mapM npOneHotRow
      = .ok [oneHot v.length ((npArgmax v).getD 0)] := by
    rw [exceptMapM_ok_of_forall [v] _
      (fun _ => oneHot v.length ((npArgmax v).getD 0)) (fun a ha => by
        rw [List.mem_singleton] at ha
        subst ha
        exact hone)]
    rfl
  unfold rfTreeOneHots
  simp only [hmapm, honemap]
  rw [if_pos (by simp)]

theorem matAdd_single (w u : List ℚ) (hlen : w.length = u.length) :
    matAdd [w] [u] = .ok [(w.zip u).map (fun q => q.1 + q.2)] := by
  unfold matAdd
  rw [if_pos (by simp [hlen])]
  rfl

theorem rfLoop_single_row (x : List Scalar) (m : ℕ) (hm0 : 0 < m)
    (trees : List TreeModel) (vs : List (List ℚ))
    (hf : List.Forall₂ (fun t v => treeProbaRowQ t x = .ok v) trees vs)
    (hm : ∀ v ∈ vs, v.length = m) :
    ∀ (w : List ℚ), w.length = m →
    ∃ res, rfLoop [x] trees (some [w]) = .ok (some [res]) ∧ res.length = m ∧
      ∀ k, k < m → res.getD k 0
        = w.getD k 0 + (vs.countP (fun v => decide (npArgmax v = some k)) : ℚ) := by
  induction hf with
  | nil =>
    intro w hw
    exact ⟨w, rfl, hw, fun k hk => by simp⟩
  | @cons t v ts vs2 hv hrest ih =>
    intro w hw
    have hvlen : v.length = m := hm v (List.mem_cons_self v vs2)
    have hvne : v ≠ [] := by
      intro hemp
      rw [hemp] at hvlen
      simp at hvlen
      omega
    obtain ⟨kv, hkv⟩ := npArgmax_isSome v hvne
    have hone := rfTreeOneHots_single t x v hv hvne
    have hsum := matAdd_single w (oneHot v.length ((npArgmax v).getD 0))
      (by rw [hw, oneHot_length, hvlen])
    have hstep : rfLoop [x] (t :: ts) (some [w])
        = rfLoop [x] ts
          (some [(w.zip (oneHot v.length ((npArgmax v).getD 0))).map
            (fun q => q.1 + q.2)]) := by
      rw [rfLoop_cons]
      simp only [hone, hsum]
    set w2 := (w.zip (oneHot v.length ((npArgmax v).getD 0))).map
      (fun q => q.1 + q.2) with hw2
    have hw2len : w2.length = m := by
      rw [hw2, vecAdd_length, hw, oneHot_length, hvlen]
      exact Nat.min_self m
    obtain ⟨res, hres, hreslen, hentry⟩ := ih
      (fun u hu => hm u (List.mem_cons_of_mem v hu)) w2 hw2len
    refine ⟨res, by rw [hstep]; exact hres, hreslen, fun k hk => ?_⟩
    rw [hentry k hk]
    rw [hw2, vecAdd_getD w _ k (by rw [hw, oneHot_length, hvlen]) (by omega)]
    rw [oneHot_getD v.length ((npArgmax v).getD 0) k (by omega)]
    rw [List.countP_cons]
    push_cast
    rw [hkv]
    have : (decide (some kv = some k) : Bool) = decide (k = kv) := by
      by_cases hkk : k = kv
      · simp [hkk]
      · simp [hkk, Ne.symm hkk]
    rw [this]
    by_cases hkk : k = kv
    · simp [hkk]
      ring
    · simp [hkk]

/-- C2: `predict_proba` of a `RandomForestClassifier` on a row is exactly the
per-class majority-vote fraction: the entry for class `k` is `m/N` where `m`
counts the member trees whose raw class-score vector attains its arg-max
(`np.argmax`, first maximal index) at `k`; in particular it is 1 for `k` and
0 elsewhere when all members vote `k`. -/
theorem rf_predict_proba_majority (trees : List TreeModel) (x : List Scalar)
    (vs : List (List ℚ)) (m : ℕ)
    (hev : List.Forall₂ (fun t v => treeProbaRowQ t x = .ok v) trees vs)
    (hm : ∀ v ∈ vs, v.length = m) (hm0 : 0 < m) (hne : trees ≠ []) :
    rfPredictProba trees [x]
      = .ok [(List.range m).map (fun k =>
          (vs.countP (fun v => decide (npArgmax v = some k)) : ℚ)
            / (trees.length : ℚ))] ∧
    (∀ k0, k0 < m → (∀ v ∈ vs, npArgmax v = some k0) →
      (vs.countP (fun v => decide (npArgmax v = some k0)) : ℚ)
          / (trees.length : ℚ) = 1 ∧
      ∀ k, k < m → k ≠ k0 →
        (vs.countP (fun v => decide (npArgmax v = some k)) : ℚ)
          / (trees.length : ℚ) = 0) := by
  constructor
  · cases hev with
    | nil => exact absurd rfl hne
    | @cons t v ts vs2 hv hrest =>
      have hvlen : v.length = m := hm v (List.mem_cons_self v vs2)
      have hvne : v ≠ [] := by
        intro hemp
        rw [hemp] at hvlen
        simp at hvlen
        omega
      obtain ⟨kv, hkv⟩ := npArgmax_isSome v hvne
      have hone := rfTreeOneHots_single t x v hv hvne
      have hfirst : rfLoop [x] (t :: ts) Option.none
          = rfLoop [x] ts (some [oneHot v.length ((npArgmax v).getD 0)]) := by
        rw [rfLoop_cons]
        simp only [hone]
      obtain ⟨res, hres, hreslen, hentry⟩ := rfLoop_single_row x m hm0 ts vs2
        hrest (fun u hu => hm u (List.mem_cons_of_mem v hu))
        (oneHot v.length ((npArgmax v).getD 0))
        (by rw [oneHot_length, hvlen])
      unfold rfPredictProba
      rw [hfirst]
      simp only [hres, List.map_cons, List.map_nil]
      congr 1
      congr 1
      apply List.ext_getElem
      · simp [hreslen]
      · intro i h1 h2
        have him : i < m := by
          simpa [hreslen] using h1
        have hresget : res.getD i 0 = res[i] := List.getD_eq_getElem res 0
          (by rw [hreslen]; exact him)
        rw [List.getElem_map, List.getElem_map, List.getElem_range]
        rw [← hresget, hentry i him]
        rw [oneHot_getD v.length ((npArgmax v).getD 0) i (by omega)]
        rw [List.countP_cons]
        push_cast
        rw [hkv]
        congr 1
        have : (decide (some kv = some i) : Bool) = decide (i = kv) := by
          by_cases hkk : i = kv
          · simp [hkk]
          · simp [hkk, Ne.symm hkk]
        rw [this]
        by_cases hkk : i = kv
        · simp [hkk]
          ring
        · simp [hkk]
  · intro k0 hk0 hall
    have hlen : vs.length = trees.length := (List.Forall₂.length_eq hev).symm
    have hcnt : vs.countP (fun v => decide (npArgmax v = some k0)) = vs.length := by
      rw [List.countP_eq_length]
      intro a ha
      exact decide_eq_true (hall a ha)
    have hN : (trees.length : ℚ) ≠ 0 := by
      have : trees.length ≠ 0 := fun h0 => hne (List.length_eq_zero.mp h0)
      exact_mod_cast this
    constructor
    · rw [hcnt, hlen]
      exact div_self hN
    · intro k hk hkne
      have hz : vs.countP (fun v => decide (npArgmax v = some k)) = 0 := by
        rw [List.countP_eq_zero]
        intro a ha
        have := hall a ha
        simp [this, hkne]
        intro hc
        exact absurd hc.symm hkne
      rw [hz]
      simp

/-- Witness for C2 at a concrete 3-member forest over 2 classes: votes fall
1 to class 1, then class 0, then class 1. -/
theorem rf_predict_proba_majority_witness :
    (0 : ℕ) < 2 ∧
    rfPredictProba
      [⟨[0], [0], [0], [Scalar.num 0], [NodeVal.vec [1, 3]], [Scalar.num 0, Scalar.num 1]⟩,
       ⟨[0], [0], [0], [Scalar.num 0], [NodeVal.vec [2, 1]], [Scalar.num 0, Scalar.num 1]⟩,
       ⟨[0], [0], [0], [Scalar.num 0], [NodeVal.vec [5, 9]], [Scalar.num 0, Scalar.num 1]⟩]
      [[Scalar.num 7]]
      = .ok [(List.range 2).map (fun k =>
          (([[(1 : ℚ), 3], [2, 1], [5, 9]].countP
            (fun v => decide (npArgmax v = some k))) : ℚ) / (((3 : ℕ)) : ℚ))] := by
  refine ⟨by decide, ?_⟩
  have h := rf_predict_proba_majority
    [⟨[0], [0], [0], [Scalar.num 0], [NodeVal.vec [1, 3]], [Scalar.num 0, Scalar.num 1]⟩,
     ⟨[0], [0], [0], [Scalar.num 0], [NodeVal.vec [2, 1]], [Scalar.num 0, Scalar.num 1]⟩,
     ⟨[0], [0], [0], [Scalar.num 0], [NodeVal.vec [5, 9]], [Scalar.num 0, Scalar.num 1]⟩]
    [Scalar.num 7] [[1, 3], [2, 1], [5, 9]] 2
    (List.Forall₂.cons rfl (List.Forall₂.cons rfl
      (List.Forall₂.cons rfl List.Forall₂.nil)))
    (by
      intro v hv
      rw [List.mem_cons, List.mem_cons, List.mem_cons] at hv
      rcases hv with h1 | h1 | h1 | h1
      · rw [h1]
        rfl
      · rw [h1]
        rfl
      · rw [h1]
        rfl
      · cases h1)
    (by decide) (by
      intro hemp
      cases hemp)
  exact h.1

theorem find_cons (k1 : String) (v1 : AttrVal) (rest : AttrMap) (k : String) :
    AttrMap.find ((k1, v1) :: rest) k
      = if k1 = k then some v1 else AttrMap.find rest k := rfl

theorem find_append_of_none (part A : AttrMap) (k : String)
    (h : AttrMap.find part k = Option.none) :
    AttrMap.find (part ++ A) k = AttrMap.find A k := by
  induction part with
  | nil => rfl
  | cons e rest ih =>
    obtain ⟨k1, v1⟩ := e
    rw [List.cons_append, find_cons]
    rw [find_cons] at h
    by_cases he : k1 = k
    · rw [if_pos he] at h
      cases h
    · rw [if_neg he] at h
      rw [if_neg he]
      exact ih h

theorem copyIter_idem (v w : AttrVal) (h : copyIter v = .ok w) :
    copyIter w = .ok w := by
  cases v <;> simp [copyIter] at h <;> subst h <;> rfl

theorem buildKMeansAttrs_spec (mt : String) (m out : AttrMap)
    (h : buildKMeansAttrs mt m = .ok out) :
    ∃ cv, AttrMap.find m "clusters" = some cv ∧
      ((mt = "NearestCentroids" ∧ ∃ cls,
          out = [("clusters", cv), ("p", (AttrMap.find m "p").getD (AttrVal.num 2)),
                 ("classes", cls)] ∧
          ((cls = AttrVal.noneV ∧ AttrMap.find m "classes" = Option.none) ∨
           ∃ cv2, AttrMap.find m "classes" = some cv2 ∧ copyIter cv2 = .ok cls))
       ∨ (mt ≠ "NearestCentroids" ∧
          out = [("clusters", cv),
                 ("p", (AttrMap.find m "p").getD (AttrVal.num 2))])) := by
  unfold buildKMeansAttrs at h
  split at h
  next hcl => cases h
  next cv hcl =>
    simp only [] at h
    refine ⟨cv, hcl, ?_⟩
    split at h
    case isFalse => cases h
    case isTrue hl =>
      split at h
      case isFalse => cases h
      case isTrue hp =>
        split at h
        case isTrue hmt =>
          split at h
          next hcls =>
            cases h
            exact Or.inl ⟨hmt, AttrVal.noneV, rfl, Or.inl ⟨rfl, hcls⟩⟩
          next cv2 hcls =>
            split at h
            next cls2 hci =>
              split at h
              case isFalse => cases h
              case isTrue hl2 =>
                cases h
                exact Or.inl ⟨hmt, cls2, rfl, Or.inr ⟨cv2, hcls, hci⟩⟩
            next e hci => cases h
        case isFalse hmt =>
          cases h
          exact Or.inr ⟨hmt, rfl⟩

theorem mem_of_find (entries : AttrMap) (k : String) (v : AttrVal)
    (h : AttrMap.find entries k = some v) : (k, v) ∈ entries := by
  induction entries with
  | nil => cases h
  | cons e rest ih =>
    obtain ⟨k1, v1⟩ := e
    rw [find_cons] at h
    by_cases h1 : k1 = k
    · rw [if_pos h1] at h
      cases h
      subst h1
      exact List.mem_cons_self _ _
    · rw [if_neg h1] at h
      exact List.mem_cons_of_mem _ (ih h)

theorem buildTreesAttrs_spec (mt : String) (m out : AttrMap)
    (h : buildTreesAttrs mt m = .ok out) :
    ∃ ts, AttrMap.find m "trees" = some (.models ts) ∧
      ((mt = "XGBoostRegressor" ∧ ∃ lrv mv,
          AttrMap.find m "learning_rate" = some lrv ∧
          AttrMap.find m "mean" = some mv ∧
          out = [("trees", AttrVal.models ts), ("mean", mv), ("learning_rate", lrv)]) ∨
       (mt ≠ "XGBoostRegressor" ∧ mt = "XGBoostClassifier" ∧ ∃ lrv lov,
          AttrMap.find m "learning_rate" = some lrv ∧
          AttrMap.find m "logodds" = some lov ∧
          out = [("trees", AttrVal.models ts), ("logodds", lov), ("learning_rate", lrv)]) ∨
       (mt ≠ "XGBoostRegressor" ∧ mt ≠ "XGBoostClassifier" ∧
          out = [("trees", AttrVal.models ts)])) := by
  unfold buildTreesAttrs at h
  split at h
  next => cases h
  next tv htv =>
    split at h
    next ts =>
      refine ⟨ts, htv, ?_⟩
      split at h
      case isFalse => cases h
      case isTrue hall =>
        split at h
        case isTrue hxr =>
          split at h
          next lrv mv hlr hmv =>
            split at h
            case isFalse => cases h
            case isTrue hnum =>
              split at h
              case isFalse => cases h
              case isTrue hnum2 =>
                cases h
                exact Or.inl ⟨hxr, lrv, mv, hlr, hmv, rfl⟩
          next h1 h2 => cases h
        case isFalse hxr =>
          split at h
          case isTrue hxc =>
            split at h
            next lrv lov hlr hlo =>
              split at h
              case isFalse => cases h
              case isTrue hlst =>
                split at h
                case isFalse => cases h
                case isTrue hnum2 =>
                  cases h
                  exact Or.inr (Or.inl ⟨hxr, hxc, lrv, lov, hlr, hlo, rfl⟩)
            next h1 h2 => cases h
          case isFalse hxc =>
            cases h
            exact Or.inr (Or.inr ⟨hxr, hxc, rfl⟩)
    next hnm => cases h

theorem buildBinaryTreeAttrs_spec (mt : String) (m out : AttrMap)
    (h : buildBinaryTreeAttrs mt m = .ok out) :
    ∃ cl cr f t v5,
      AttrMap.find m "children_left" = some cl ∧
      AttrMap.find m "children_right" = some cr ∧
      AttrMap.find m "feature" = some f ∧
      AttrMap.find m "threshold" = some t ∧
      AttrMap.find m "value" = some v5 ∧
      ((mt = "BinaryTreeClassifier" ∧
          out = [("children_left", cl), ("children_right", cr), ("feature", f),
                 ("threshold", t), ("value", v5),
                 ("classes", (AttrMap.find m "classes").getD (AttrVal.scalarList []))]) ∨
       (mt ≠ "BinaryTreeClassifier" ∧
          out = [("children_left", cl), ("children_right", cr), ("feature", f),
                 ("threshold", t), ("value", v5)])) := by
  unfold buildBinaryTreeAttrs at h
  split at h
  next cl cr f t v5 hcl hcr hf ht hv =>
    refine ⟨cl, cr, f, t, v5, hcl, hcr, hf, ht, hv, ?_⟩
    split at h
    case isFalse => cases h
    case isTrue hchk =>
      split at h
      case isTrue hmt =>
        simp only [] at h
        split at h
        case isFalse => cases h
        case isTrue hcls =>
          cases h
          exact Or.inl ⟨hmt, rfl⟩
      case isFalse hmt =>
        cases h
        exact Or.inr ⟨hmt, rfl⟩
  next => cases h

theorem buildOneHotAttrs_spec (m out : AttrMap)
    (h : buildOneHotAttrs m = .ok out) :
    ∃ cv, AttrMap.find m "categories" = some cv ∧
      out = [("categories", cv),
             ("drop_first", (AttrMap.find m "drop_first").getD (AttrVal.boolV false)),
             ("column_naming", (AttrMap.find m "column_naming").getD (AttrVal.strV "indices"))] := by
  unfold buildOneHotAttrs at h
  split at h
  next => cases h
  next cv hcv =>
    simp only [] at h
    refine ⟨cv, hcv, ?_⟩
    split at h
    case isFalse => cases h
    case isTrue hl =>
      split at h
      next b =>
        split at h
        case isFalse => cases h
        case isTrue hcn =>
          cases h
          rfl
      next hnb => cases h

theorem buildLinearAttrs_spec (m out : AttrMap)
    (h : buildLinearAttrs m = .ok out) :
    ∃ cv iv, AttrMap.find m "coefficients" = some cv ∧
      AttrMap.find m "intercept" = some iv ∧
      out = [("coefficients", cv), ("intercept", iv)] := by
  unfold buildLinearAttrs at h
  split at h
  next cv iv hcv hiv =>
    refine ⟨cv, iv, hcv, hiv, ?_⟩
    split at h
    case isFalse => cases h
    case isTrue hl =>
      split at h
      case isFalse => cases h
      case isTrue hn =>
        cases h
        rfl
  next => cases h

theorem buildBisectingAttrs_spec (m out : AttrMap)
    (h : buildBisectingAttrs m = .ok out) :
    ∃ cv lv rv, AttrMap.find m "clusters" = some cv ∧
      AttrMap.find m "left_child" = some lv ∧
      AttrMap.find m "right_child" = some rv ∧
      out = [("clusters", cv), ("left_child", lv), ("right_child", rv),
             ("p", (AttrMap.find m "p").getD (AttrVal.num 2))] := by
  unfold buildBisectingAttrs at h
  split at h
  next cv lv rv hcv hlv hrv =>
    refine ⟨cv, lv, rv, hcv, hlv, hrv, ?_⟩
    simp only [] at h
    split at h
    case isFalse => cases h
    case isTrue hl =>
      split at h
      case isFalse => cases h
      case isTrue hp =>
        cases h
        rfl
  next => cases h

theorem buildPcaAttrs_spec (m out : AttrMap)
    (h : buildPcaAttrs m = .ok out) :
    ∃ pv mv, AttrMap.find m "principal_components" = some pv ∧
      AttrMap.find m "mean" = some mv ∧
      out = [("principal_components", pv), ("mean", mv)] := by
  unfold buildPcaAttrs at h
  split at h
  next pv mv hpv hmv =>
    refine ⟨pv, mv, hpv, hmv, ?_⟩
    split at h
    case isFalse => cases h
    case isTrue hl =>
      cases h
      rfl
  next => cases h

theorem buildSvdAttrs_spec (m out : AttrMap)
    (h : buildSvdAttrs m = .ok out) :
    ∃ vv sv, AttrMap.find m "vectors" = some vv ∧
      AttrMap.find m "values" = some sv ∧
      out = [("vectors", vv), ("values", sv)] := by
  unfold buildSvdAttrs at h
  split at h
  next vv sv hvv hsv =>
    refine ⟨vv, sv, hvv, hsv, ?_⟩
    split at h
    case isFalse => cases h
    case isTrue hl =>
      cases h
      rfl
  next => cases h

theorem buildNormalizerAttrs_spec (m out : AttrMap)
    (h : buildNormalizerAttrs m = .ok out) :
    ∃ vv mev, AttrMap.find m "values" = some vv ∧
      AttrMap.find m "method" = some mev ∧
      out = [("values", vv), ("method", mev)] := by
  unfold buildNormalizerAttrs at h
  split at h
  next vv mev hvv hmev =>
    refine ⟨vv, mev, hvv, hmev, ?_⟩
    split at h
    case isFalse => cases h
    case isTrue hl =>
      split at h
      case isFalse => cases h
      case isTrue hme =>
        cases h
        rfl
  next => cases h

/-- C4: `set_attributes` merges the partial field set over the existing
snapshot and revalidates the merged bag through `__init__`: on success every
field of the existing snapshot not named in the partial set keeps its value
in the rebuilt snapshot, and on a validation failure the original
Descriptor's stored attributes are left unchanged. -/
theorem set_attributes_partial_update (mt : String) (a0 part : AttrMap)
    (d : Descriptor) (h : buildDescriptor mt a0 = .ok d) :
    (∀ d2, setAttributes d part = .ok d2 →
      ∀ k v, AttrMap.find d.attributes_ k = some v →
        AttrMap.find part k = Option.none →
        AttrMap.find d2.attributes_ k = some v) ∧
    (∀ e, setAttributes d part = .error e → setAttributesState d part = d) := by
  constructor
  case right =>
    intro e he
    unfold setAttributesState
    rw [he]
  case left =>
    intro d2 h2 k v hk hpart
    unfold buildDescriptor at h
    split at h
    case h_2 => cases h
    case h_1 A hA =>
      cases h
      unfold setAttributes buildDescriptor at h2
      simp only [] at h2 hk ⊢
      split at h2
      case h_2 => cases h2
      case h_1 B hB =>
        cases h2
        simp only []
        have hmg : AttrMap.find (part ++ A) k = some v := by
          rw [find_append_of_none part A k hpart]
          exact hk
        unfold buildAttributes at hA hB
        by_cases hmem : mt ∉ memModelTypes
        · rw [if_pos hmem] at hA
          cases hA
        rw [if_neg hmem] at hA hB
        by_cases htf : mt ∈ treesFamilyKinds
        · rw [if_pos htf] at hA hB
          obtain ⟨ts, hts, hcaseA⟩ := buildTreesAttrs_spec mt a0 A hA
          obtain ⟨ts2, hts2, hcaseB⟩ := buildTreesAttrs_spec mt (part ++ A) B hB
          rcases hcaseA with ⟨hxr, lrv, mv, hlr, hmv, houtA⟩ |
            ⟨hnxr, hxc, lrv, lov, hlr, hlo, houtA⟩ | ⟨hnxr, hnxc, houtA⟩
          · rcases hcaseB with ⟨hxr2, lrv2, mv2, hlr2, hmv2, houtB⟩ |
              ⟨hnxr2, hxc2, _, _, _, _, houtB⟩ | ⟨hnxr2, hnxc2, houtB⟩
            · rw [houtA] at hk
              have hmem2 := mem_of_find _ _ _ hk
              simp only [List.mem_cons, List.not_mem_nil, or_false,
                Prod.mk.injEq] at hmem2
              rcases hmem2 with ⟨hk1, hv1⟩ | ⟨hk1, hv1⟩ | ⟨hk1, hv1⟩ <;> subst hk1
              · obtain rfl : AttrVal.models ts2 = v :=
                  Option.some.inj (hts2.symm.trans hmg)
                rw [houtB]
                simp [AttrMap.find]
              · obtain rfl : mv2 = v := Option.some.inj (hmv2.symm.trans hmg)
                rw [houtB]
                simp [AttrMap.find]
              · obtain rfl : lrv2 = v := Option.some.inj (hlr2.symm.trans hmg)
                rw [houtB]
                simp [AttrMap.find]
            · exact absurd hxr hnxr2
            · exact absurd hxr hnxr2
          · rcases hcaseB with ⟨hxr2, _, _, _, _, houtB⟩ |
              ⟨hnxr2, hxc2, lrv2, lov2, hlr2, hlo2, houtB⟩ | ⟨hnxr2, hnxc2, houtB⟩
            · exact absurd hxr2 hnxr
            · rw [houtA] at hk
              have hmem2 := mem_of_find _ _ _ hk
              simp only [List.mem_cons, List.not_mem_nil, or_false,
                Prod.mk.injEq] at hmem2
              rcases hmem2 with ⟨hk1, hv1⟩ | ⟨hk1, hv1⟩ | ⟨hk1, hv1⟩ <;> subst hk1
              · obtain rfl : AttrVal.models ts2 = v :=
                  Option.some.inj (hts2.symm.trans hmg)
                rw [houtB]
                simp [AttrMap.find]
              · obtain rfl : lov2 = v := Option.some.inj (hlo2.symm.trans hmg)
                rw [houtB]
                simp [AttrMap.find]
              · obtain rfl : lrv2 = v := Option.some.inj (hlr2.symm.trans hmg)
                rw [houtB]
                simp [AttrMap.find]
            · exact absurd hxc hnxc2
          · rcases hcaseB with ⟨hxr2, _, _, _, _, houtB⟩ |
              ⟨hnxr2, hxc2, _, _, _, _, houtB⟩ | ⟨hnxr2, hnxc2, houtB⟩
            · exact absurd hxr2 hnxr
            · exact absurd hxc2 hnxc
            · rw [houtA] at hk
              have hmem2 := mem_of_find _ _ _ hk
              simp only [List.mem_cons, List.not_mem_nil, or_false,
                Prod.mk.injEq] at hmem2
              obtain ⟨hk1, hv1⟩ := hmem2
              subst hk1
              obtain rfl : AttrVal.models ts2 = v :=
                Option.some.inj (hts2.symm.trans hmg)
              rw [houtB]
              simp [AttrMap.find]
        rw [if_neg htf] at hA hB
        by_cases hbt : mt = "BinaryTreeClassifier" ∨ mt = "BinaryTreeRegressor"
        · rw [if_pos hbt] at hA hB
          obtain ⟨cl, cr, f, t, v5, hcl, hcr, hf, ht, hv, hcaseA⟩ :=
            buildBinaryTreeAttrs_spec mt a0 A hA
          obtain ⟨cl2, cr2, f2, t2, v52, hcl2, hcr2, hf2, ht2, hv2, hcaseB⟩ :=
            buildBinaryTreeAttrs_spec mt (part ++ A) B hB
          rcases hcaseA with ⟨hmtc, houtA⟩ | ⟨hmtc, houtA⟩
          · rcases hcaseB with ⟨hmtc2, houtB⟩ | ⟨hmtc2, houtB⟩
            · rw [houtA] at hk
              have hmem2 := mem_of_find _ _ _ hk
              simp only [List.mem_cons, List.not_mem_nil, or_false,
                Prod.mk.injEq] at hmem2
              rcases hmem2 with ⟨hk1, hv1⟩ | ⟨hk1, hv1⟩ | ⟨hk1, hv1⟩ |
                ⟨hk1, hv1⟩ | ⟨hk1, hv1⟩ | ⟨hk1, hv1⟩ <;> subst hk1
              · obtain rfl : cl2 = v := Option.some.inj (hcl2.symm.trans hmg)
                rw [houtB]
                simp [AttrMap.find]
              · obtain rfl : cr2 = v := Option.some.inj (hcr2.symm.trans hmg)
                rw [houtB]
                simp [AttrMap.find]
              · obtain rfl : f2 = v := Option.some.inj (hf2.symm.trans hmg)
                rw [houtB]
                simp [AttrMap.find]
              · obtain rfl : t2 = v := Option.some.inj (ht2.symm.trans hmg)
                rw [houtB]
                simp [AttrMap.find]
              · obtain rfl : v52 = v := Option.some.inj (hv2.symm.trans hmg)
                rw [houtB]
                simp [AttrMap.find]
              · rw [houtB]
                simp [AttrMap.find, hmg]
            · exact absurd hmtc hmtc2
          · rcases hcaseB with ⟨hmtc2, houtB⟩ | ⟨hmtc2, houtB⟩
            · exact absurd hmtc2 hmtc
            · rw [houtA] at hk
              have hmem2 := mem_of_find _ _ _ hk
              simp only [List.mem_cons, List.not_mem_nil, or_false,
                Prod.mk.injEq] at hmem2
              rcases hmem2 with ⟨hk1, hv1⟩ | ⟨hk1, hv1⟩ | ⟨hk1, hv1⟩ |
                ⟨hk1, hv1⟩ | ⟨hk1, hv1⟩ <;> subst hk1
              · obtain rfl : cl2 = v := Option.some.inj (hcl2.symm.trans hmg)
                rw [houtB]
                simp [AttrMap.find]
              · obtain rfl : cr2 = v := Option.some.inj (hcr2.symm.trans hmg)
                rw [houtB]
                simp [AttrMap.find]
              · obtain rfl : f2 = v := Option.some.inj (hf2.symm.trans hmg)
                rw [houtB]
                simp [AttrMap.find]
              · obtain rfl : t2 = v := Option.some.inj (ht2.symm.trans hmg)
                rw [houtB]
                simp [AttrMap.find]
              · obtain rfl : v52 = v := Option.some.inj (hv2.symm.trans hmg)
                rw [houtB]
                simp [AttrMap.find]
        rw [if_neg hbt] at hA hB
        by_cases hoh : mt = "OneHotEncoder"
        · rw [if_pos hoh] at hA hB
          obtain ⟨cv, hcv, houtA⟩ := buildOneHotAttrs_spec a0 A hA
          obtain ⟨cv2, hcv2, houtB⟩ := buildOneHotAttrs_spec (part ++ A) B hB
          rw [houtA] at hk
          have hmem2 := mem_of_find _ _ _ hk
          simp only [List.mem_cons, List.not_mem_nil, or_false,
            Prod.mk.injEq] at hmem2
          rcases hmem2 with ⟨hk1, hv1⟩ | ⟨hk1, hv1⟩ | ⟨hk1, hv1⟩ <;> subst hk1
          · obtain rfl : cv2 = v := Option.some.inj (hcv2.symm.trans hmg)
            rw [houtB]
            simp [AttrMap.find]
          · rw [houtB]
            simp [AttrMap.find, hmg]
          · rw [houtB]
            simp [AttrMap.find, hmg]
        rw [if_neg hoh] at hA hB
        by_cases hlin : mt = "LinearSVR" ∨ mt = "LinearSVC"
            ∨ mt = "LogisticRegression" ∨ mt = "LinearRegression"
        · rw [if_pos hlin] at hA hB
          obtain ⟨cv, iv, hcv, hiv, houtA⟩ := buildLinearAttrs_spec a0 A hA
          obtain ⟨cv2, iv2, hcv2, hiv2, houtB⟩ :=
            buildLinearAttrs_spec (part ++ A) B hB
          rw [houtA] at hk
          have hmem2 := mem_of_find _ _ _ hk
          simp only [List.mem_cons, List.not_mem_nil, or_false,
            Prod.mk.injEq] at hmem2
          rcases hmem2 with ⟨hk1, hv1⟩ | ⟨hk1, hv1⟩ <;> subst hk1
          · obtain rfl : cv2 = v := Option.some.inj (hcv2.symm.trans hmg)
            rw [houtB]
            simp [AttrMap.find]
          · obtain rfl : iv2 = v := Option.some.inj (hiv2.symm.trans hmg)
            rw [houtB]
            simp [AttrMap.find]
        rw [if_neg hlin] at hA hB
        by_cases hbk : mt = "BisectingKMeans"
        · rw [if_pos hbk] at hA hB
          obtain ⟨cv, lv, rv, hcv, hlv, hrv, houtA⟩ :=
            buildBisectingAttrs_spec a0 A hA
          obtain ⟨cv2, lv2, rv2, hcv2, hlv2, hrv2, houtB⟩ :=
            buildBisectingAttrs_spec (part ++ A) B hB
          rw [houtA] at hk
          have hmem2 := mem_of_find _ _ _ hk
          simp only [List.mem_cons, List.not_mem_nil, or_false,
            Prod.mk.injEq] at hmem2
          rcases hmem2 with ⟨hk1, hv1⟩ | ⟨hk1, hv1⟩ | ⟨hk1, hv1⟩ | ⟨hk1, hv1⟩ <;>
            subst hk1
          · obtain rfl : cv2 = v := Option.some.inj (hcv2.symm.trans hmg)
            rw [houtB]
            simp [AttrMap.find]
          · obtain rfl : lv2 = v := Option.some.inj (hlv2.symm.trans hmg)
            rw [houtB]
            simp [AttrMap.find]
          · obtain rfl : rv2 = v := Option.some.inj (hrv2.symm.trans hmg)
            rw [houtB]
            simp [AttrMap.find]
          · rw [houtB]
            simp [AttrMap.find, hmg]
        rw [if_neg hbk] at hA hB
        by_cases hkm : mt = "KMeans" ∨ mt = "NearestCentroids"
        · rw [if_pos hkm] at hA hB
          obtain ⟨cv, hcv, hcaseA⟩ := buildKMeansAttrs_spec mt a0 A hA
          obtain ⟨cv2, hcv2, hcaseB⟩ := buildKMeansAttrs_spec mt (part ++ A) B hB
          rcases hcaseA with ⟨hnc, cls, houtA, hclsA⟩ | ⟨hnc, houtA⟩
          · rcases hcaseB with ⟨hnc2, cls2, houtB, hclsB⟩ | ⟨hnc2, houtB⟩
            · rw [houtA] at hk
              have hmem2 := mem_of_find _ _ _ hk
              simp only [List.mem_cons, List.not_mem_nil, or_false,
                Prod.mk.injEq] at hmem2
              rcases hmem2 with ⟨hk1, hv1⟩ | ⟨hk1, hv1⟩ | ⟨hk1, hv1⟩ <;> subst hk1
              · obtain rfl : cv2 = v := Option.some.inj (hcv2.symm.trans hmg)
                rw [houtB]
                simp [AttrMap.find]
              · rw [houtB]
                simp [AttrMap.find, hmg]
              · rcases hclsB with ⟨hcls2n, hfind2⟩ | ⟨cvv2, hfind2, hcopy2⟩
                · rw [hfind2] at hmg
                  cases hmg
                · rw [hfind2] at hmg
                  obtain rfl : cvv2 = v := Option.some.inj hmg
                  rw [hv1] at hcopy2
                  rcases hclsA with ⟨hclsn, hfindA⟩ | ⟨cvvA, hfindA, hcopyA⟩
                  · rw [hclsn] at hcopy2
                    simp [copyIter] at hcopy2
                  · have hid := copyIter_idem cvvA cls hcopyA
                    rw [hid] at hcopy2
                    obtain rfl : cls2 = cls := (Except.ok.inj hcopy2).symm
                    rw [houtB, hv1]
                    simp [AttrMap.find]
            · exact absurd hnc hnc2
          · rcases hcaseB with ⟨hnc2, cls2, houtB, hclsB⟩ | ⟨hnc2, houtB⟩
            · exact absurd hnc2 hnc
            · rw [houtA] at hk
              have hmem2 := mem_of_find _ _ _ hk
              simp only [List.mem_cons, List.not_mem_nil, or_false,
                Prod.mk.injEq] at hmem2
              rcases hmem2 with ⟨hk1, hv1⟩ | ⟨hk1, hv1⟩ <;> subst hk1
              · obtain rfl : cv2 = v := Option.some.inj (hcv2.symm.trans hmg)
                rw [houtB]
                simp [AttrMap.find]
              · rw [houtB]
                simp [AttrMap.find, hmg]
        rw [if_neg hkm] at hA hB
        by_cases hpca : mt = "PCA"
        · rw [if_pos hpca] at hA hB
          obtain ⟨pv, mv, hpv, hmv, houtA⟩ := buildPcaAttrs_spec a0 A hA
          obtain ⟨pv2, mv2, hpv2, hmv2, houtB⟩ :=
            buildPcaAttrs_spec (part ++ A) B hB
          rw [houtA] at hk
          have hmem2 := mem_of_find _ _ _ hk
          simp only [List.mem_cons, List.not_mem_nil, or_false,
            Prod.mk.injEq] at hmem2
          rcases hmem2 with ⟨hk1, hv1⟩ | ⟨hk1, hv1⟩ <;> subst hk1
          · obtain rfl : pv2 = v := Option.some.inj (hpv2.symm.trans hmg)
            rw [houtB]
            simp [AttrMap.find]
          · obtain rfl : mv2 = v := Option.some.inj (hmv2.symm.trans hmg)
            rw [houtB]
            simp [AttrMap.find]
        rw [if_neg hpca] at hA hB
        by_cases hsvd : mt = "SVD"
        · rw [if_pos hsvd] at hA hB
          obtain ⟨vv, sv, hvv, hsv, houtA⟩ := buildSvdAttrs_spec a0 A hA
          obtain ⟨vv2, sv2, hvv2, hsv2, houtB⟩ :=
            buildSvdAttrs_spec (part ++ A) B hB
          rw [houtA] at hk
          have hmem2 := mem_of_find _ _ _ hk
          simp only [List.mem_cons, List.not_mem_nil, or_false,
            Prod.mk.injEq] at hmem2
          rcases hmem2 with ⟨hk1, hv1⟩ | ⟨hk1, hv1⟩ <;> subst hk1
          · obtain rfl : vv2 = v := Option.some.inj (hvv2.symm.trans hmg)
            rw [houtB]
            simp [AttrMap.find]
          · obtain rfl : sv2 = v := Option.some.inj (hsv2.symm.trans hmg)
            rw [houtB]
            simp [AttrMap.find]
        rw [if_neg hsvd] at hA hB
        by_cases hnrm : mt = "Normalizer"
        · rw [if_pos hnrm] at hA hB
          obtain ⟨vv, mev, hvv, hmev, houtA⟩ := buildNormalizerAttrs_spec a0 A hA
          obtain ⟨vv2, mev2, hvv2, hmev2, houtB⟩ :=
            buildNormalizerAttrs_spec (part ++ A) B hB
          rw [houtA] at hk
          have hmem2 := mem_of_find _ _ _ hk
          simp only [List.mem_cons, List.not_mem_nil, or_false,
            Prod.mk.injEq] at hmem2
          rcases hmem2 with ⟨hk1, hv1⟩ | ⟨hk1, hv1⟩ <;> subst hk1
          · obtain rfl : vv2 = v := Option.some.inj (hvv2.symm.trans hmg)
            rw [houtB]
            simp [AttrMap.find]
          · obtain rfl : mev2 = v := Option.some.inj (hmev2.symm.trans hmg)
            rw [houtB]
            simp [AttrMap.find]
        rw [if_neg hnrm] at hA
        cases hA

/-- Witness for C4: a KMeans model built with clusters [[1,2]] and p = 4,
updated with the partial set {p := 3}, keeps its clusters value in the
rebuilt snapshot. -/
theorem set_attributes_partial_update_witness :
    AttrMap.find (Descriptor.mk "KMeans"
        [("clusters", AttrVal.matrix [[1, 2]]), ("p", AttrVal.num 3)]).attributes_
        "clusters" = some (AttrVal.matrix [[1, 2]]) :=
  (set_attributes_partial_update "KMeans"
      [("clusters", AttrVal.matrix [[1, 2]]), ("p", AttrVal.num 4)]
      [("p", AttrVal.num 3)]
      (Descriptor.mk "KMeans"
        [("clusters", AttrVal.matrix [[1, 2]]), ("p", AttrVal.num 4)])
      (by rfl)).1
    (Descriptor.mk "KMeans"
      [("clusters", AttrVal.matrix [[1, 2]]), ("p", AttrVal.num 3)])
    (by rfl) "clusters" (AttrVal.matrix [[1, 2]]) (by rfl) (by rfl)

end VerticaPy

